import Mathlib

/-!
# Verification development for the resource runtime

Shallow embedding of
* `pkg/controller/generic/transform/options.go` (controller options),
* `pkg/state/protobuf/client/client.go` (the remote adapter),
* `pkg/state/impl/inmem/errors_test.go` (error kinds of the in-memory store),
* `pkg/resource/rtestutils/assertions.go` (the test assertion helper),
* `pkg/state/registry/resource.go` (the resource registry),
together with the properties established about them.
-/

set_option autoImplicit false

/-! ## Transform controller options (`options.go`) -/

namespace Transform

/-- Configuration record of the transform controller (`ControllerOptions`).
Channels and callbacks are represented by identifiers, list options, inputs and
outputs by their names, the requeue interval by a number of nanoseconds. -/
structure ControllerOptions where
  extraEventCh : Option Nat
  onShutdownCallback : Option Nat
  inputListOptions : List String
  extraInputs : List String
  extraOutputs : List String
  primaryOutputKind : Nat
  requeueInterval : Int
  inputFinalizers : Bool
  ignoreTearingDownInputs : Bool
  deriving DecidableEq, Repr

/-- The option constructors of `options.go`; each value stands for the closure
the Go constructor of the same name returns. -/
inductive ControllerOption where
  | WithInputListOptions (opts : List String)
  | WithExtraInputs (inputs : List String)
  | WithExtraOutputs (outputs : List String)
  | WithInputFinalizers
  | WithIgnoreTearingDownInputs
  | WithExtraEventChannel (extraEventCh : Nat)
  | WithOnShutdownCallback (onShutdownCallback : Nat)
  | WithOutputKind (kind : Nat)
  | WithRequeueInterval (value : Int)
  deriving DecidableEq, Repr

/-- The message both mutually exclusive options pass to the Go runtime when
they abort. -/
def exclusiveMsg : String :=
  "WithIgnoreTearingDownInputs is mutually exclusive with WithInputFinalizers"

/-- Body of the closure behind each option: `.error msg` is a panic with
message `msg`, `.ok o` the options record after the closure ran. -/
def ControllerOption.run : ControllerOption → ControllerOptions → Except String ControllerOptions
  | .WithInputListOptions opts, o =>
      .ok { o with inputListOptions := o.inputListOptions ++ opts }
  | .WithExtraInputs inputs, o =>
      .ok { o with extraInputs := o.extraInputs ++ inputs }
  | .WithExtraOutputs outputs, o =>
      .ok { o with extraOutputs := o.extraOutputs ++ outputs }
  | .WithInputFinalizers, o =>
      if o.ignoreTearingDownInputs then .error exclusiveMsg
      else .ok { o with inputFinalizers := true }
  | .WithIgnoreTearingDownInputs, o =>
      if o.inputFinalizers then .error exclusiveMsg
      else .ok { o with ignoreTearingDownInputs := true }
  | .WithExtraEventChannel ch, o =>
      .ok { o with extraEventCh := some ch }
  | .WithOnShutdownCallback cb, o =>
      .ok { o with onShutdownCallback := some cb }
  | .WithOutputKind kind, o =>
      .ok { o with primaryOutputKind := kind }
  | .WithRequeueInterval value, o =>
      .ok { o with requeueInterval := value }

/-- Applies the options left to right, the first of them having position `i`.
A panic stops the application; the error records the position of the option
that panicked and its message. -/
def applyFrom : Nat → List ControllerOption → ControllerOptions →
    Except (Nat × String) ControllerOptions
  | _, [], o => .ok o
  | i, opt :: rest, o =>
      match opt.run o with
      | .error msg => .error (i, msg)
      | .ok o' => applyFrom (i + 1) rest o'

/-- Applies a list of options in order, positions counted from zero. -/
def applyOptions (opts : List ControllerOption) (o : ControllerOptions) :
    Except (Nat × String) ControllerOptions :=
  applyFrom 0 opts o

/-- The zero value of `ControllerOptions`. -/
def fresh : ControllerOptions :=
  { extraEventCh := none, onShutdownCallback := none, inputListOptions := [],
    extraInputs := [], extraOutputs := [], primaryOutputKind := 0,
    requeueInterval := 0, inputFinalizers := false, ignoreTearingDownInputs := false }

end Transform

/-! ## Remote adapter (`client.go`): data model -/

namespace Client

/-- Status codes of the transport (`google.golang.org/grpc/codes`). -/
inductive Code where
  | OK | Canceled | Unknown | InvalidArgument | DeadlineExceeded | NotFound
  | AlreadyExists | PermissionDenied | ResourceExhausted | FailedPrecondition
  | Aborted | OutOfRange | Unimplemented | Internal | Unavailable | DataLoss
  | Unauthenticated
  deriving DecidableEq, Repr

/-- Error values that reach the adapter from the transport and from the
encoding layer: an error carrying a transport status, the end-of-stream marker
`io.EOF`, and any other error (also what `errors.New` builds). -/
inductive GoError where
  | status (code : Code) (msg : String)
  | eof
  | other (msg : String)
  deriving DecidableEq, Repr

/-- The switch scrutinee `status.Code(err)` for a non-nil `err`: the code of a
status error, `Unknown` for every error that carries no status. -/
def statusCode : GoError → Code
  | .status code _ => code
  | .eof => .Unknown
  | .other _ => .Unknown

/-- The test `errors.Is(err, io.EOF)` for a non-nil `err`. -/
def isEOF : GoError → Bool
  | .eof => true
  | _ => false

/-- Modelled from the spec: the wrapper `eNotFound` is declared in a file of the
client package that is not among the sources; it marks its cause as the store
error kind NotFound. -/
structure eNotFound where
  err : GoError
  deriving DecidableEq, Repr

/-- Modelled from the spec: the wrapper `eConflict` is declared in a file of the
client package that is not among the sources; it marks its cause as the store
error kind Conflict. -/
structure eConflict where
  err : GoError
  deriving DecidableEq, Repr

/-- Modelled from the spec: the wrapper `eOwnerConflict` is declared in a file
of the client package that is not among the sources; it embeds an `eConflict`
and marks it as the store error kind OwnerConflict. -/
structure eOwnerConflict where
  eConflict : eConflict
  deriving DecidableEq, Repr

/-- Modelled from the spec: the wrapper `ePhaseConflict` is declared in a file
of the client package that is not among the sources; it embeds an `eConflict`
and marks it as the store error kind PhaseConflict. -/
structure ePhaseConflict where
  eConflict : eConflict
  deriving DecidableEq, Repr

/-- Non-nil values of the Go interface `error` that the adapter returns: an
error handed on verbatim, or one of the four wrappers around a transport
error. -/
inductive Error where
  | verbatim (err : GoError)
  | notFound (e : eNotFound)
  | conflict (e : eConflict)
  | ownerConflict (e : eOwnerConflict)
  | phaseConflict (e : ePhaseConflict)
  deriving DecidableEq, Repr

/-- Modelled from the spec: `state.IsNotFoundError` is declared outside the
sources; it recognises the error kind NotFound. -/
def IsNotFoundError : Error → Bool
  | .notFound _ => true
  | _ => false

/-- Modelled from the spec: `state.IsConflictError` is declared outside the
sources; it recognises the error kind Conflict, which the owner and phase
wrappers inherit from the `eConflict` they embed. -/
def IsConflictError : Error → Bool
  | .conflict _ => true
  | .ownerConflict _ => true
  | .phaseConflict _ => true
  | _ => false

/-- Modelled from the spec: `state.IsOwnerConflictError` is declared outside
the sources; it recognises the error kind OwnerConflict. -/
def IsOwnerConflictError : Error → Bool
  | .ownerConflict _ => true
  | _ => false

/-- Modelled from the spec: `state.IsPhaseConflictError` is declared outside
the sources; it recognises the error kind PhaseConflict. -/
def IsPhaseConflictError : Error → Bool
  | .phaseConflict _ => true
  | _ => false

/-- Owner of a resource (`resource.Owner`, a string; empty means unowned). -/
abbrev Owner := String

/-- Modelled from the spec: `resource.Version` is declared outside the sources;
an opaque per-resource sequence number, `none` standing for the undefined
version. -/
abbrev Version := Option Nat

/-- Modelled from the spec: `resource.Phase` is declared outside the sources;
the lifecycle phases Running and TearingDown. -/
inductive Phase where
  | Running | TearingDown
  deriving DecidableEq, Repr

/-- A point in time (`time.Time`), as seconds and nanoseconds. -/
structure Time where
  sec : Int
  nsec : Int
  deriving DecidableEq, Repr

/-- Modelled from the spec: `resource.Metadata` is declared outside the
sources; the identity triple and the fields the data model lists. -/
structure Metadata where
  ns : String
  typ : String
  id : String
  ver : Version
  owner : Owner
  phase : Phase
  finalizers : List String
  updated : Time
  deriving DecidableEq, Repr

/-- Modelled from the spec: `Metadata.SetVersion` is declared outside the
sources; it stores the version. -/
def Metadata.SetVersion (md : Metadata) (version : Version) : Metadata :=
  { md with ver := version }

/-- Modelled from the spec: `Metadata.SetUpdated` is declared outside the
sources; it stores the timestamp of the last mutation. -/
def Metadata.SetUpdated (md : Metadata) (t : Time) : Metadata :=
  { md with updated := t }

/-- A value of the interface `resource.Resource`: metadata and an opaque
payload. -/
structure Resource where
  md : Metadata
  spec : String
  deriving DecidableEq, Repr

/-- Identity of one resource (`resource.Pointer`). -/
structure Pointer where
  ns : String
  typ : String
  id : String
  deriving DecidableEq, Repr

/-- Identity of a resource kind (`resource.Kind`). -/
structure Kind where
  ns : String
  typ : String
  deriving DecidableEq, Repr

/-- Wire timestamp (`timestamppb.Timestamp`). -/
structure Timestamp where
  seconds : Int
  nanos : Int
  deriving DecidableEq, Repr

/-- Wire form of resource metadata (`v1alpha1.Metadata`). -/
structure WireMetadata where
  Namespace : String
  Typ : String
  Id : String
  Version : String
  Owner : String
  Phase : String
  Updated : Option Timestamp
  Finalizers : List String
  deriving DecidableEq, Repr

/-- Wire form of a resource (`v1alpha1.Resource`). -/
structure WireResource where
  Metadata : Option WireMetadata
  Spec : String
  deriving DecidableEq, Repr

/-- Nil-safe getter `(*v1alpha1.Resource).GetMetadata`. -/
def GetMetadata : Option WireResource → Option WireMetadata
  | none => none
  | some r => r.Metadata

/-- Nil-safe getter `(*v1alpha1.Metadata).GetVersion`. -/
def GetVersion : Option WireMetadata → String
  | none => ""
  | some m => m.Version

/-- Nil-safe getter `(*v1alpha1.Metadata).GetUpdated`. -/
def GetUpdated : Option WireMetadata → Option Timestamp
  | none => none
  | some m => m.Updated

/-- Nil-safe getter `(*v1alpha1.Metadata).GetOwner`. -/
def GetOwner : Option WireMetadata → String
  | none => ""
  | some m => m.Owner

end Client

/-! ## Remote adapter: requests, responses, transport and library interface -/

namespace Client

/-- Options block of a decode (`state.UnmarshalOptions`). -/
structure UnmarshalOptions where
  SkipProtobufUnmarshal : Bool
  deriving DecidableEq, Repr

/-- Label query of the caller (`resource.LabelQuery`), terms kept opaque. -/
structure LabelQuery where
  Terms : List String
  deriving DecidableEq, Repr

/-- Identifier query of the caller (`resource.IDQuery`). -/
structure IDQuery where
  Regexp : Option String
  deriving DecidableEq, Repr

/-- Wire form of a label query (`v1alpha1.LabelQuery`). -/
structure WireLabelQuery where
  Terms : List String
  deriving DecidableEq, Repr

/-- Wire form of an identifier query (`v1alpha1.IDQuery`). -/
structure WireIDQuery where
  Regexp : String
  deriving DecidableEq, Repr

/-- Resolved options of `Get` (`state.GetOptions`), after every option
function has been applied. -/
structure GetOptions where
  UnmarshalOptions : UnmarshalOptions
  deriving DecidableEq, Repr

/-- Resolved options of `List` (`state.ListOptions`). -/
structure ListOptions where
  LabelQuery : LabelQuery
  IDQuery : IDQuery
  UnmarshalOptions : UnmarshalOptions
  deriving DecidableEq, Repr

/-- Resolved options of `Create` (`state.CreateOptions`). -/
structure CreateOptions where
  Owner : String
  deriving DecidableEq, Repr

/-- Resolved options of `Update` (`state.UpdateOptions`). -/
structure UpdateOptions where
  Owner : String
  ExpectedPhase : Option Phase
  deriving DecidableEq, Repr

/-- Resolved options of `Destroy` (`state.DestroyOptions`). -/
structure DestroyOptions where
  Owner : String
  deriving DecidableEq, Repr

/-- Resolved options of `Watch` (`state.WatchOptions`). -/
structure WatchOptions where
  TailEvents : Int
  UnmarshalOptions : UnmarshalOptions
  deriving DecidableEq, Repr

/-- Resolved options of `WatchKind` (`state.WatchKindOptions`). -/
structure WatchKindOptions where
  BootstrapContents : Bool
  TailEvents : Int
  LabelQuery : LabelQuery
  IDQuery : IDQuery
  UnmarshalOptions : UnmarshalOptions
  deriving DecidableEq, Repr

/-- Request of the verb Get (`v1alpha1.GetRequest`; its options block is
empty). -/
structure GetRequest where
  Namespace : String
  Typ : String
  Id : String
  deriving DecidableEq, Repr

/-- Options block of a list request (`v1alpha1.ListOptions`). -/
structure WireListOptions where
  LabelQuery : Option WireLabelQuery
  IdQuery : Option WireIDQuery
  deriving DecidableEq, Repr

/-- Request of the verb List (`v1alpha1.ListRequest`). -/
structure ListRequest where
  Namespace : String
  Typ : String
  Options : WireListOptions
  deriving DecidableEq, Repr

/-- Request of the verb Create (`v1alpha1.CreateRequest`), the owner being its
options block. -/
structure CreateRequest where
  Resource : WireResource
  Owner : String
  deriving DecidableEq, Repr

/-- Request of the verb Update (`v1alpha1.UpdateRequest`), owner and expected
phase being its options block. -/
structure UpdateRequest where
  NewResource : WireResource
  Owner : String
  ExpectedPhase : Option String
  deriving DecidableEq, Repr

/-- Request of the verb Destroy (`v1alpha1.DestroyRequest`), the owner being
its options block. -/
structure DestroyRequest where
  Namespace : String
  Typ : String
  Id : String
  Owner : String
  deriving DecidableEq, Repr

/-- Options block of a watch request (`v1alpha1.WatchOptions`). -/
structure WireWatchOptions where
  BootstrapContents : Bool
  TailEvents : Int
  LabelQuery : Option WireLabelQuery
  IdQuery : Option WireIDQuery
  deriving DecidableEq, Repr

/-- Request of the streaming verb Watch (`v1alpha1.WatchRequest`). -/
structure WatchRequest where
  Namespace : String
  Typ : String
  Id : Option String
  Options : WireWatchOptions
  ApiVersion : Nat
  deriving DecidableEq, Repr

/-- Response of Get (`v1alpha1.GetResponse`). -/
structure GetResponse where
  Resource : Option WireResource
  deriving DecidableEq, Repr

/-- One frame of a list stream (`v1alpha1.ListResponse`). -/
structure ListResponse where
  Resource : Option WireResource
  deriving DecidableEq, Repr

/-- Response of Create (`v1alpha1.CreateResponse`). -/
structure CreateResponse where
  Resource : Option WireResource
  deriving DecidableEq, Repr

/-- Response of Update (`v1alpha1.UpdateResponse`). -/
structure UpdateResponse where
  Resource : Option WireResource
  deriving DecidableEq, Repr

/-- Event types on the wire (`v1alpha1.EventType`, an open enumeration: a
value outside the five named ones is `other`). -/
inductive WireEventType where
  | CREATED | UPDATED | DESTROYED | BOOTSTRAPPED | ERRORED
  | other (n : Int)
  deriving DecidableEq, Repr

/-- Envelope of an event on the wire (`v1alpha1.Event`). -/
structure WireEvent where
  Resource : Option WireResource
  Old : Option WireResource
  Error : Option String
  EventType : WireEventType
  deriving DecidableEq, Repr

/-- One frame of a watch stream (`v1alpha1.WatchResponse`). -/
structure WatchResponse where
  Event : Option WireEvent
  deriving DecidableEq, Repr

/-- A client stream: the results its successive `Recv` calls give. A stream
that has given all of them reports `io.EOF`. -/
abbrev Stream (α : Type) := List (Except GoError α)

/-- One call of `Recv`: the result and the stream that remains. -/
def Recv {α : Type} : Stream α → Except GoError α × Stream α
  | [] => (.error .eof, [])
  | x :: rest => (x, rest)

/-- The transport (`v1alpha1.StateClient`): what each verb answers to a
request. -/
structure StateClient where
  Get : GetRequest → Except GoError GetResponse
  List : ListRequest → Except GoError (Stream ListResponse)
  Create : CreateRequest → Except GoError CreateResponse
  Update : UpdateRequest → Except GoError UpdateResponse
  Destroy : DestroyRequest → Except GoError Unit
  Watch : WatchRequest → Except GoError (Stream WatchResponse)

/-- Functions the adapter calls that are declared outside `client.go`: the
encoding layer (`protobuf.FromResource`, `Marshal`, `protobuf.Unmarshal`,
`protobuf.UnmarshalResource`), `resource.ParseVersion`, `Timestamp.AsTime`,
`Metadata.SetOwner` (which reports an error and may change the metadata),
`Phase.String`, and the two query translations. -/
structure Library where
  FromResource : Resource → Except GoError Resource
  Marshal : Resource → Except GoError WireResource
  Unmarshal : Option WireResource → Except GoError Resource
  UnmarshalResource : Resource → Except GoError Resource
  ParseVersion : String → Except GoError Version
  AsTime : Option Timestamp → Time
  SetOwner : Metadata → Owner → Option GoError × Metadata
  PhaseString : Phase → String
  transformLabelQuery : LabelQuery → Except GoError (Option WireLabelQuery)
  transformIDQuery : IDQuery → Option WireIDQuery

/-- The conversion `int32(n)` of a Go `int`. -/
def toInt32 (n : Int) : Int :=
  (n + 2147483648) % 4294967296 - 2147483648

/-- The adapter (`Adapter`): a wrapper around the transport client. -/
structure Adapter where
  client : StateClient

end Client

/-! ## Remote adapter: request/response operations -/

namespace Client

/-- Embedding of `Adapter.Get`: the resource, or the error returned. -/
def Adapter.Get (adapter : Adapter) (lib : Library) (resourcePointer : Pointer)
    (opts : GetOptions) : Except Error Resource :=
  match adapter.client.Get
      { Namespace := resourcePointer.ns, Typ := resourcePointer.typ, Id := resourcePointer.id } with
  | .error err =>
      match statusCode err with
      | .NotFound => .error (.notFound { err := err })
      | _ => .error (.verbatim err)
  | .ok resp =>
      match lib.Unmarshal resp.Resource with
      | .error err => .error (.verbatim err)
      | .ok unmarshaled =>
          if opts.UnmarshalOptions.SkipProtobufUnmarshal then .ok unmarshaled
          else
            match lib.UnmarshalResource unmarshaled with
            | .error err => .error (.verbatim err)
            | .ok r => .ok r

/-- The receive loop of `Adapter.List` (lines 113-140): `list` holds the items
appended so far; the result is the list returned and the error returned with
it. -/
def listLoop (lib : Library) (skip : Bool) :
    Stream ListResponse → List Resource → List Resource × Option Error
  | [], list => (list, none)
  | .error err :: _, list =>
      if isEOF err then (list, none) else (list, some (.verbatim err))
  | .ok resp :: cli, list =>
      match lib.Unmarshal resp.Resource with
      | .error err => (list, some (.verbatim err))
      | .ok unmarshaled =>
          if skip then listLoop lib skip cli (list ++ [unmarshaled])
          else
            match lib.UnmarshalResource unmarshaled with
            | .error err => (list, some (.verbatim err))
            | .ok r => listLoop lib skip cli (list ++ [r])

/-- The decode steps the loop of `Adapter.List` applies to one frame (lines
123-137): the item that is appended, or the error that is returned. -/
def decodeListItem (lib : Library) (skip : Bool) (resp : ListResponse) :
    Except GoError Resource :=
  match lib.Unmarshal resp.Resource with
  | .error err => .error err
  | .ok unmarshaled =>
      if skip then .ok unmarshaled else lib.UnmarshalResource unmarshaled

/-- The results a stream gives before it reports end-of-stream. -/
def beforeEOF {α : Type} (cli : Stream α) : Stream α :=
  cli.takeWhile (fun x =>
    match x with
    | .error err => !isEOF err
    | .ok _ => true)

/-- Embedding of `Adapter.List`: the items of the returned `resource.List` and
the error returned with them. -/
def Adapter.List (adapter : Adapter) (lib : Library) (resourceKind : Kind)
    (opts : ListOptions) : List Resource × Option Error :=
  match (if opts.LabelQuery.Terms.length > 0 then lib.transformLabelQuery opts.LabelQuery
         else .ok none) with
  | .error err => ([], some (.verbatim err))
  | .ok labelQuery =>
      match adapter.client.List
          { Namespace := resourceKind.ns, Typ := resourceKind.typ,
            Options := { LabelQuery := labelQuery,
                         IdQuery := lib.transformIDQuery opts.IDQuery } } with
      | .error err =>
          match statusCode err with
          | .NotFound => ([], some (.notFound { err := err }))
          | _ => ([], some (.verbatim err))
      | .ok cli => listLoop lib opts.UnmarshalOptions.SkipProtobufUnmarshal cli []

/-- Embedding of `updateResourceMetadata`: the error returned and the target
resource as the call leaves it. -/
def updateResourceMetadata (lib : Library) (source : Option WireResource)
    (targetRes : Resource) : Option Error × Resource :=
  match lib.ParseVersion (GetVersion (GetMetadata source)) with
  | .error err => (some (.verbatim err), targetRes)
  | .ok version =>
      let md1 := targetRes.md.SetVersion version
      let md2 := md1.SetUpdated (lib.AsTime (GetUpdated (GetMetadata source)))
      let res := lib.SetOwner md2 (GetOwner (GetMetadata source))
      (res.1.map Error.verbatim, { targetRes with md := res.2 })

/-- Embedding of `Adapter.Create`: the error returned and the caller's
resource `r` as the call leaves it. -/
def Adapter.Create (adapter : Adapter) (lib : Library) (r : Resource)
    (opts : CreateOptions) : Option Error × Resource :=
  match lib.FromResource r with
  | .error err => (some (.verbatim err), r)
  | .ok protoR =>
      match lib.Marshal protoR with
      | .error err => (some (.verbatim err), r)
      | .ok marshaled =>
          match adapter.client.Create { Resource := marshaled, Owner := opts.Owner } with
          | .error err =>
              match statusCode err with
              | .NotFound => (some (.notFound { err := err }), r)
              | .PermissionDenied =>
                  (some (.ownerConflict { eConflict := { err := err } }), r)
              | .AlreadyExists => (some (.conflict { err := err }), r)
              | _ => (some (.verbatim err), r)
          | .ok resp => updateResourceMetadata lib resp.Resource r

/-- Embedding of `Adapter.Update`: the error returned and the caller's
resource `newResource` as the call leaves it. -/
def Adapter.Update (adapter : Adapter) (lib : Library) (newResource : Resource)
    (opts : UpdateOptions) : Option Error × Resource :=
  match lib.FromResource newResource with
  | .error err => (some (.verbatim err), newResource)
  | .ok protoR =>
      match lib.Marshal protoR with
      | .error err => (some (.verbatim err), newResource)
      | .ok marshaled =>
          let expectedPhase : Option String :=
            match opts.ExpectedPhase with
            | some phase => some (lib.PhaseString phase)
            | none => none
          match adapter.client.Update
              { NewResource := marshaled, Owner := opts.Owner,
                ExpectedPhase := expectedPhase } with
          | .error err =>
              match statusCode err with
              | .NotFound => (some (.notFound { err := err }), newResource)
              | .PermissionDenied =>
                  (some (.ownerConflict { eConflict := { err := err } }), newResource)
              | .InvalidArgument =>
                  (some (.phaseConflict { eConflict := { err := err } }), newResource)
              | .FailedPrecondition => (some (.conflict { err := err }), newResource)
              | _ => (some (.verbatim err), newResource)
          | .ok resp => updateResourceMetadata lib resp.Resource newResource

/-- Embedding of `Adapter.Destroy`: the error returned, `none` being nil. -/
def Adapter.Destroy (adapter : Adapter) (resourcePointer : Pointer)
    (opts : DestroyOptions) : Option Error :=
  match adapter.client.Destroy
      { Namespace := resourcePointer.ns, Typ := resourcePointer.typ,
        Id := resourcePointer.id, Owner := opts.Owner } with
  | .error err =>
      match statusCode err with
      | .NotFound => some (.notFound { err := err })
      | .PermissionDenied => some (.ownerConflict { eConflict := { err := err } })
      | .FailedPrecondition => some (.conflict { err := err })
      | _ => some (.verbatim err)
  | .ok _ => none

end Client

/-! ## Remote adapter: watch streams -/

namespace Client

/-- Modelled from the spec: `state.EventType` is declared outside the sources;
the five event variants, in the order the data model lists them. -/
inductive EventType where
  | Created | Updated | Destroyed | Bootstrapped | Errored
  deriving DecidableEq, Repr

/-- Modelled from the spec: `state.Event` is declared outside the sources; the
tag, the current and the previous resource, and an error. -/
structure Event where
  Typ : EventType
  Resource : Option Client.Resource
  Old : Option Client.Resource
  Error : Option GoError
  deriving DecidableEq, Repr

/-- Modelled from the spec: the zero value `state.Event{}`; its tag is the
first variant the data model lists. -/
def Event.zero : Event :=
  { Typ := .Created, Resource := none, Old := none, Error := none }

/-- The switch on `msg.Event.EventType` (lines 382-393): a named wire type sets
the tag, any other value leaves the event as it is. -/
def setEventType (event : Event) : WireEventType → Event
  | .CREATED => { event with Typ := .Created }
  | .UPDATED => { event with Typ := .Updated }
  | .DESTROYED => { event with Typ := .Destroyed }
  | .BOOTSTRAPPED => { event with Typ := .Bootstrapped }
  | .ERRORED => { event with Typ := .Errored }
  | .other _ => event

/-- Decoding of one resource of a frame, the block at lines 396-412 and again
at lines 416-432. -/
def decodeResource (lib : Library) (skipProtobufUnmarshal : Bool) (w : WireResource) :
    Except GoError Resource :=
  match lib.Unmarshal (some w) with
  | .error err => .error err
  | .ok unmarshaled =>
      if skipProtobufUnmarshal then .ok unmarshaled
      else lib.UnmarshalResource unmarshaled

/-- The part of the loop body of `watchAdapter` that builds the event of a
frame (lines 380-437): the event, or the error that is handed to `sendError`. -/
def buildEvent (lib : Library) (skipProtobufUnmarshal : Bool) (ev : WireEvent) :
    Except GoError Event :=
  let event := setEventType Event.zero ev.EventType
  match (match ev.Resource with
         | none => Except.ok event
         | some w =>
             match decodeResource lib skipProtobufUnmarshal w with
             | .error err => .error err
             | .ok r => .ok { event with Resource := some r }) with
  | .error err => .error err
  | .ok event =>
      match (match ev.Old with
             | none => Except.ok event
             | some w =>
                 match decodeResource lib skipProtobufUnmarshal w with
                 | .error err => .error err
                 | .ok r => .ok { event with Old := some r }) with
      | .error err => .error err
      | .ok event =>
          match ev.Error with
          | none => .ok event
          | some s => .ok { event with Error := some (.other s) }

/-- What a run of `watchAdapter` leaves behind: the events the subscriber's
channel received, in order, and whether the run ended in a nil dereference of
`msg.Event`. -/
structure Delivery where
  events : List Event
  crashed : Bool
  deriving DecidableEq, Repr

/-- The closure `sendError`, followed by the `return` after each of its calls.
`send n` tells whether the send attempt number `n` of this run hands the event
to the subscriber (`channel.SendWithContext` gives true) or is cut short by the
context. -/
def sendError (send : Nat → Bool) (n : Nat) (err : GoError) : Delivery :=
  if send n then
    { events := [{ Typ := .Errored, Resource := none, Old := none, Error := some err }],
      crashed := false }
  else { events := [], crashed := false }

/-- Embedding of `watchAdapter`: `n` counts the send attempts made so far, the
stream is what `cli.Recv` will give from here on. -/
def watchAdapter (lib : Library) (send : Nat → Bool) (skipProtobufUnmarshal : Bool) :
    Nat → Stream WatchResponse → Delivery
  | _, [] => { events := [], crashed := false }
  | n, .error err :: _ =>
      if isEOF err then { events := [], crashed := false }
      else sendError send n err
  | n, .ok msg :: cli =>
      match msg.Event with
      | none => { events := [], crashed := true }
      | some ev =>
          match buildEvent lib skipProtobufUnmarshal ev with
          | .error err => sendError send n err
          | .ok event =>
              if send n then
                let later := watchAdapter lib send skipProtobufUnmarshal (n + 1) cli
                { events := event :: later.events, crashed := later.crashed }
              else { events := [], crashed := false }

/-- Outcome of `Watch` and `WatchKind`: the error returned, and the delivery
task the call started, given by the stream handed to `watchAdapter` and the
decode flag. -/
structure Subscription where
  err : Option Error
  task : Option (Stream WatchResponse × Bool)

/-- The common tail of `Watch` and `WatchKind` (lines 297-309 and 342-354):
the result of opening the stream is checked, one frame is received and
dropped, and the delivery task is started on the rest of the stream. -/
def startWatch (opened : Except GoError (Stream WatchResponse)) (skip : Bool) : Subscription :=
  match opened with
  | .error err => { err := some (.verbatim err), task := none }
  | .ok cli =>
      match Recv cli with
      | (.error err, _) => { err := some (.verbatim err), task := none }
      | (.ok _, cli) => { err := none, task := some (cli, skip) }

/-- Embedding of `Adapter.Watch`. -/
def Adapter.Watch (adapter : Adapter) (resourcePointer : Pointer) (opts : WatchOptions) :
    Subscription :=
  startWatch
    (adapter.client.Watch
      { Namespace := resourcePointer.ns, Typ := resourcePointer.typ,
        Id := some resourcePointer.id,
        Options := { BootstrapContents := false, TailEvents := toInt32 opts.TailEvents,
                     LabelQuery := none, IdQuery := none },
        ApiVersion := 1 })
    opts.UnmarshalOptions.SkipProtobufUnmarshal

/-- Embedding of `Adapter.WatchKind`. -/
def Adapter.WatchKind (adapter : Adapter) (lib : Library) (resourceKind : Kind)
    (opts : WatchKindOptions) : Subscription :=
  match (if opts.LabelQuery.Terms.length > 0 then lib.transformLabelQuery opts.LabelQuery
         else .ok none) with
  | .error err => { err := some (.verbatim err), task := none }
  | .ok labelQuery =>
      startWatch
        (adapter.client.Watch
          { Namespace := resourceKind.ns, Typ := resourceKind.typ, Id := none,
            Options := { BootstrapContents := opts.BootstrapContents,
                         TailEvents := toInt32 opts.TailEvents,
                         LabelQuery := labelQuery,
                         IdQuery := lib.transformIDQuery opts.IDQuery },
            ApiVersion := 1 })
        opts.UnmarshalOptions.SkipProtobufUnmarshal

/-- The events a subscription delivers to the subscriber's channel: those of
its delivery task, none when no task was started. -/
def Subscription.events (sub : Subscription) (lib : Library) (send : Nat → Bool) : List Event :=
  match sub.task with
  | none => []
  | some (cli, skip) => (watchAdapter lib send skip 0 cli).events

end Client

/-! ## Concrete transports and library used to evaluate the adapter -/

namespace Client

/-- A library instance for evaluation: the encoding layer copies the fields
across, a version is `undefined` or a decimal number,
`SetOwner` refuses to replace a different owner that is already set. -/
def sampleLibrary : Library where
  FromResource := fun r => .ok r
  Marshal := fun r =>
    .ok { Metadata := some { Namespace := r.md.ns, Typ := r.md.typ, Id := r.md.id,
                             Version := "undefined", Owner := r.md.owner, Phase := "running",
                             Updated := some { seconds := r.md.updated.sec,
                                               nanos := r.md.updated.nsec },
                             Finalizers := r.md.finalizers },
          Spec := r.spec }
  Unmarshal := fun w =>
    match w with
    | none => .error (.other "nil resource")
    | some w =>
        match w.Metadata with
        | none => .error (.other "no metadata")
        | some m =>
            .ok { md := { ns := m.Namespace, typ := m.Typ, id := m.Id, ver := none,
                          owner := m.Owner, phase := .Running, finalizers := m.Finalizers,
                          updated := { sec := 0, nsec := 0 } },
                  spec := w.Spec }
  UnmarshalResource := fun r =>
    if r.spec = "bad" then .error (.other "unknown resource type") else .ok r
  ParseVersion := fun s =>
    if s = "undefined" then .ok none
    else if s.data ≠ [] ∧ s.data.all Char.isDigit = true then
      .ok (some (s.data.foldl (fun n c => 10 * n + (c.toNat - 48)) 0))
    else .error (.other "error parsing version")
  AsTime := fun t =>
    match t with
    | none => { sec := 0, nsec := 0 }
    | some t => { sec := t.seconds, nsec := t.nanos }
  SetOwner := fun md owner =>
    if md.owner = "" ∨ md.owner = owner then (none, { md with owner := owner })
    else (some (.other "owner is already set"), md)
  PhaseString := fun p =>
    match p with
    | .Running => "running"
    | .TearingDown => "tearingDown"
  transformLabelQuery := fun q => .ok (some { Terms := q.Terms })
  transformIDQuery := fun q =>
    match q.Regexp with
    | none => none
    | some re => some { Regexp := re }

/-- A transport every verb of which fails with the error `err`. -/
def failingClient (err : GoError) : StateClient where
  Get := fun _ => .error err
  List := fun _ => .error err
  Create := fun _ => .error err
  Update := fun _ => .error err
  Destroy := fun _ => .error err
  Watch := fun _ => .error err

/-- A transport that answers Create and Update with the resource `w`, Get with
`w` as well, Destroy with success, and opens the given list and watch
streams. -/
def answeringClient (w : Option WireResource) (list : Stream ListResponse)
    (watch : Stream WatchResponse) : StateClient where
  Get := fun _ => .ok { Resource := w }
  List := fun _ => .ok list
  Create := fun _ => .ok { Resource := w }
  Update := fun _ => .ok { Resource := w }
  Destroy := fun _ => .ok ()
  Watch := fun _ => .ok watch

/-- A resource for evaluation. -/
def sampleResource : Resource :=
  { md := { ns := "ns", typ := "Widget", id := "w1", ver := none, owner := "",
            phase := .Running, finalizers := [], updated := { sec := 0, nsec := 0 } },
    spec := "S1" }

/-- A server-side view of `sampleResource`: version 2, owner `"ctrl"`, updated
at 5 s 7 ns. -/
def sampleWire : WireResource :=
  { Metadata := some { Namespace := "ns", Typ := "Widget", Id := "w1", Version := "2",
                       Owner := "ctrl", Phase := "running",
                       Updated := some { seconds := 5, nanos := 7 }, Finalizers := [] },
    Spec := "S1" }

/-- The pointer of `sampleResource`. -/
def samplePointer : Pointer :=
  { ns := "ns", typ := "Widget", id := "w1" }

/-- The frame that opens a watch stream: it carries no event. -/
def emptyFrame : WatchResponse :=
  { Event := none }

/-- A frame announcing that `sampleWire` was created. -/
def createdFrame : WatchResponse :=
  { Event := some { Resource := some sampleWire, Old := none, Error := none,
                    EventType := .CREATED } }

/-- A frame whose event is of type ERRORED. -/
def erroredFrame : WatchResponse :=
  { Event := some { Resource := none, Old := none, Error := some "watch aborted",
                    EventType := .ERRORED } }

/-- A frame marking the end of the initial snapshot; it carries no resource. -/
def bootstrappedFrame : WatchResponse :=
  { Event := some { Resource := none, Old := none, Error := none,
                    EventType := .BOOTSTRAPPED } }

/-- The resource the sample library decodes from `sampleWire`. -/
def sampleDecoded : Resource :=
  { md := { ns := "ns", typ := "Widget", id := "w1", ver := none, owner := "ctrl",
            phase := .Running, finalizers := [], updated := { sec := 0, nsec := 0 } },
    spec := "S1" }

/-- Resolved watch options for evaluation. -/
def sampleWatchOptions : WatchOptions :=
  { TailEvents := 0, UnmarshalOptions := { SkipProtobufUnmarshal := false } }

/-- Resolved kind-watch options for evaluation. -/
def sampleWatchKindOptions : WatchKindOptions :=
  { BootstrapContents := true, TailEvents := 0, LabelQuery := { Terms := [] },
    IDQuery := { Regexp := none }, UnmarshalOptions := { SkipProtobufUnmarshal := false } }

/-- Resolved list options for evaluation. -/
def sampleListOptions : ListOptions :=
  { LabelQuery := { Terms := [] }, IDQuery := { Regexp := none },
    UnmarshalOptions := { SkipProtobufUnmarshal := false } }

/-- A list stream of two frames and end-of-stream. -/
def sampleListStream : Stream ListResponse :=
  [.ok { Resource := some sampleWire }, .ok { Resource := some sampleWire }, .error .eof]

/-- A list stream that breaks after its first frame. -/
def brokenListStream : Stream ListResponse :=
  [.ok { Resource := some sampleWire }, .error (.status .Unavailable "closing"), .error .eof]

/-- The subscriber that accepts every event under a context that stays
live: every send attempt succeeds. -/
def acceptAll : Nat → Bool :=
  fun _ => true

end Client

/-! ## In-memory store: error constructors (`inmem`, exercised by `errors_test.go`) -/

namespace Inmem

open Client

/-- Text naming a resource identity inside an error message. -/
def describe (r : Pointer) : String :=
  r.typ ++ "(" ++ r.ns ++ "/" ++ r.id ++ ")"

/-- Text naming a version inside an error message. -/
def describeVersion : Version → String
  | none => "undefined"
  | some n => toString n

/-- Modelled from the spec: `inmem.ErrNotFound` is declared in a file of the
in-memory store that is not among the sources; it builds the error of kind
NotFound, raised when the target identity does not exist. -/
def ErrNotFound (r : Pointer) : Error :=
  .notFound { err := .other ("resource " ++ describe r ++ " doesn't exist") }

/-- Modelled from the spec: `inmem.ErrAlreadyExists` is declared in a file of
the in-memory store that is not among the sources; it builds the error raised
by a create on an existing identity, which is of kind Conflict. -/
def ErrAlreadyExists (r : Pointer) : Error :=
  .conflict { err := .other ("resource " ++ describe r ++ " already exists") }

/-- Modelled from the spec: `inmem.ErrVersionConflict` is declared in a file of
the in-memory store that is not among the sources; it builds the error raised
by a compare-and-swap mismatch on update, which is of kind Conflict. -/
def ErrVersionConflict (r : Pointer) (expected found : Version) : Error :=
  .conflict { err := .other ("resource " ++ describe r ++ " update conflict: expected version "
    ++ describeVersion expected ++ ", actual version " ++ describeVersion found) }

/-- Modelled from the spec: `inmem.ErrPendingFinalizers` is declared in a file
of the in-memory store that is not among the sources; it builds the error
raised by a destroy blocked by outstanding finalizers, which is of kind
Conflict. -/
def ErrPendingFinalizers (r : Pointer) : Error :=
  .conflict { err := .other ("resource " ++ describe r ++ " has pending finalizers") }

/-- Modelled from the spec: `resource.VersionUndefined` is declared outside the
sources; the undefined version. -/
def VersionUndefined : Version :=
  none

/-- The identity of `resource.NewMetadata("ns", "a", "b", resource.VersionUndefined)`,
the value `TestErrors` passes to each constructor. -/
def testPointer : Pointer :=
  { ns := "ns", typ := "a", id := "b" }

/-- Embedding of `TestErrors`: the conjunction of its four assertions. -/
def TestErrors : Bool :=
  IsNotFoundError (ErrNotFound testPointer) &&
  IsConflictError (ErrAlreadyExists testPointer) &&
  IsConflictError (ErrVersionConflict testPointer VersionUndefined VersionUndefined) &&
  IsConflictError (ErrPendingFinalizers testPointer)

end Inmem

/-! ## Test assertions (`rtestutils/assertions.go`) -/

namespace Rtestutils

open Client

/-- Options of the test helpers (`Options`); the interval is a `time.Duration`,
a number of nanoseconds. -/
structure Options where
  Namespace : String
  ReportInterval : Int
  deriving DecidableEq, Repr

/-- The functional options of the test helpers (`Option`); each value stands
for the closure the Go constructor of the same name returns. -/
inductive TestOption where
  | WithNamespace (ns : String)
  | WithReportInterval (interval : Int)
  deriving DecidableEq, Repr

/-- Body of the closure behind each option. -/
def TestOption.run : TestOption → Options → Options
  | .WithNamespace ns, o => { o with Namespace := ns }
  | .WithReportInterval interval, o => { o with ReportInterval := interval }

/-- Embedding of `makeOptions`: thirty seconds of report interval, then the
options in order. -/
def makeOptions (opts : List TestOption) : Options :=
  opts.foldl (fun opt o => o.run opt) { Namespace := "", ReportInterval := 30 * 1000000000 }

/-- Embedding of `pick`. -/
def pick {T : Type} (cond : Bool) (a b : T) : T :=
  if cond then a else b

/-- The fields of `meta.ResourceDefinitionSpec` the helpers read, as the
resource type `R` gives them. -/
structure ResourceDefinitionSpec where
  Typ : String
  DefaultNamespace : String
  deriving DecidableEq, Repr

/-- The store as the helpers see it at one moment (`state.State`): the answer
of `safe.StateGet` for a pointer, and the answer of `WatchKind`. -/
structure State where
  Get : Pointer → Except Error Resource
  WatchKind : Kind → Option Error

/-- A failure handed to the aggregator: by `asserter.NoError` on a non-nil
error, or by an assertion of the caller's function, with its message. -/
inductive Failure where
  | noError (err : Error)
  | assertion (msg : String)
  deriving DecidableEq, Repr

/-- Modelled from the spec: `assertionAggregator` is declared in a file of the
package that is not among the sources; it accumulates the failures reported in
a pass and flags that a failure was reported. -/
structure assertionAggregator where
  errors : List Failure
  hadErrors : Bool
  deriving DecidableEq, Repr

/-- Modelled from the spec: `assertionAggregator.Errorf` is declared outside
the sources; it adds the failure to the accumulated set and raises the
flag. -/
def assertionAggregator.Errorf (agg : assertionAggregator) (f : Failure) :
    assertionAggregator :=
  { errors := if f ∈ agg.errors then agg.errors else agg.errors ++ [f], hadErrors := true }

/-- Modelled from the spec: `assertionAggregator.Equal` is declared outside the
sources; two aggregators are equal when they accumulated the same failures. -/
def assertionAggregator.Equal (a b : assertionAggregator) : Bool :=
  a.errors.all (fun f => decide (f ∈ b.errors)) && b.errors.all (fun f => decide (f ∈ a.errors))

/-- Why a run was stopped by `require`: `WatchKind` failed, a `Get` failed
with an error other than not-found, the context was done, or the watch
delivered an Errored event with an error. -/
inductive Stop where
  | watchKind (err : Error)
  | get (err : Error)
  | timeout (aggregator : assertionAggregator)
  | watchErrored (err : GoError)
  deriving DecidableEq, Repr

/-- Result of one pass over the ids (lines 54-78): the pass was stopped by
`require.NoError`, or it ran to its end with the count and the aggregator. -/
inductive PassResult where
  | fatal (err : Error)
  | done (ok : Nat) (aggregator : assertionAggregator)
  deriving DecidableEq, Repr

/-- The inner loop over the ids (lines 59-78). `assertionFunc res` lists the
messages of the assertions of the caller's function that fail on `res`, each
of which reaches the aggregator through `Errorf`. -/
def passLoop (st : State) (ns typ : String) (assertionFunc : Resource → List String) :
    List String → Nat → assertionAggregator → PassResult
  | [], ok, aggregator => .done ok aggregator
  | id :: ids, ok, aggregator =>
      match st.Get { ns := ns, typ := typ, id := id } with
      | .error err =>
          if IsNotFoundError err then
            passLoop st ns typ assertionFunc ids ok (aggregator.Errorf (.noError err))
          else .fatal err
      | .ok res =>
          let reset : assertionAggregator := { aggregator with hadErrors := false }
          let after := (assertionFunc res).foldl (fun a msg => a.Errorf (.assertion msg)) reset
          if !after.hadErrors then passLoop st ns typ assertionFunc ids (ok + 1) after
          else passLoop st ns typ assertionFunc ids ok after

/-- One pass (lines 54-78): the count starts at zero, the aggregator empty. -/
def pass (st : State) (ns typ : String) (assertionFunc : Resource → List String)
    (ids : List String) : PassResult :=
  passLoop st ns typ assertionFunc ids 0 { errors := [], hadErrors := false }

/-- What the `select` of the outer loop receives. -/
inductive Select where
  | ctxDone
  | event (ev : Event)
  | tick
  deriving DecidableEq, Repr

/-- One line of the test log (`t.Logf` at line 87). -/
structure Report where
  ok : Nat
  total : Nat
  aggregator : assertionAggregator
  deriving DecidableEq, Repr

/-- How a run ends: a normal return, a stop by `require`, the panic of
`time.NewTicker` on a non-positive interval, or the run is left waiting in
`select` because nothing more happens. -/
inductive Outcome where
  | returned
  | failNow (reason : Stop)
  | panicked
  | waiting
  deriving DecidableEq, Repr

/-- A run of a helper: how it ends and what it logged. -/
structure Run where
  outcome : Outcome
  logs : List Report
  deriving DecidableEq, Repr

/-- The variables the outer loop keeps between passes (lines 47-51). -/
structure LoopState where
  doReport : Bool
  lastReportedAggregator : assertionAggregator
  lastReporedOk : Nat
  deriving DecidableEq, Repr

/-- What one turn of the outer loop leads to: the run ends, or the loop goes
round again with these variables and this log. -/
inductive Turn where
  | stop (run : Run)
  | again (vars : LoopState) (logs : List Report)
  deriving DecidableEq, Repr

/-- One turn of the outer loop of `AssertResources` (lines 54-107): the pass
over the store `st`, the check of the count, the report, and the `select`,
which receives `sel`, or nothing at all when `sel` is `none`. -/
def turn (ns typ : String) (assertionFunc : Resource → List String) (ids : List String)
    (vars : LoopState) (logs : List Report) (st : State) (sel : Option Select) : Turn :=
  match pass st ns typ assertionFunc ids with
  | .fatal err => .stop { outcome := .failNow (.get err), logs := logs }
  | .done ok aggregator =>
      if ok == ids.length then .stop { outcome := .returned, logs := logs }
      else
        let logs' :=
          if vars.doReport &&
              (!vars.lastReportedAggregator.Equal aggregator || vars.lastReporedOk != ok)
          then logs ++ [{ ok := ok, total := ids.length, aggregator := aggregator }]
          else logs
        let vars' : LoopState :=
          if vars.doReport then
            { vars with lastReporedOk := ok, lastReportedAggregator := aggregator }
          else vars
        match sel with
        | none => .stop { outcome := .waiting, logs := logs' }
        | some .ctxDone => .stop { outcome := .failNow (.timeout aggregator), logs := logs' }
        | some (.event ev) =>
            if ev.Typ == .Errored then
              match ev.Error with
              | some err => .stop { outcome := .failNow (.watchErrored err), logs := logs' }
              | none => .again { vars' with doReport := false } logs'
            else .again { vars' with doReport := false } logs'
        | some .tick => .again { vars' with doReport := true } logs'

/-- The outer loop of `AssertResources` (lines 53-108). `st` is the store at
the pass about to run; each entry of the schedule is what `select` receives
after a pass, with the store at the pass that follows. When the schedule is
used up the run is left waiting in `select`. -/
def assertLoop (ns typ : String) (assertionFunc : Resource → List String)
    (ids : List String) :
    List (Select × State) → LoopState → List Report → State → Run
  | [], vars, logs, st =>
      match turn ns typ assertionFunc ids vars logs st none with
      | .stop run => run
      | .again _ logs' => { outcome := .waiting, logs := logs' }
  | (sel, next) :: rest, vars, logs, st =>
      match turn ns typ assertionFunc ids vars logs st (some sel) with
      | .stop run => run
      | .again vars' logs' => assertLoop ns typ assertionFunc ids rest vars' logs' next

/-- Embedding of `AssertResources`. -/
def AssertResources (rds : ResourceDefinitionSpec) (st : State) (ids : List String)
    (assertionFunc : Resource → List String) (opts : List TestOption)
    (schedule : List (Select × State)) : Run :=
  let opt := makeOptions opts
  let ns := pick (opt.Namespace != "") opt.Namespace rds.DefaultNamespace
  match st.WatchKind { ns := ns, typ := rds.Typ } with
  | some err => { outcome := .failNow (.watchKind err), logs := [] }
  | none =>
      if opt.ReportInterval ≤ 0 then { outcome := .panicked, logs := [] }
      else
        assertLoop ns rds.Typ assertionFunc ids schedule
          { doReport := false, lastReportedAggregator := { errors := [], hadErrors := false },
            lastReporedOk := 0 }
          [] st

end Rtestutils

/-! ## Resource registry (`registry/resource.go`) -/

namespace Registry

open Client

/-- A value of `resource.Resource` as `Register` sees it: the resource, and
the definition it provides when its type implements
`meta.ResourceDefinitionProvider` (`none` when the type assertion fails). -/
structure Registrable where
  resource : Resource
  definition : Option Rtestutils.ResourceDefinitionSpec
  deriving DecidableEq, Repr

/-- What `Register` uses of the package `meta`, which is not among the sources:
the constructor `meta.NewResourceDefinition`, which may reject a definition,
and the two values `&meta.ResourceDefinition{}` and `&meta.Namespace{}` that
`RegisterDefault` registers. -/
structure Meta where
  NewResourceDefinition : Rtestutils.ResourceDefinitionSpec → Except GoError Resource
  ResourceDefinition : Registrable
  Namespace : Registrable

/-- The part of `state.State` the registry calls, over a store of type `σ`: a
create returns its error and the store it leaves. -/
structure StateOps (σ : Type) where
  Create : σ → Resource → Option Error × σ

/-- Errors `Register` returns: the two it builds with `fmt.Errorf` (the value
does not provide a definition; the definition was rejected, wrapping the
cause), and the error of `state.Create`, returned as it is. -/
inductive RegisterError where
  | notProvider (r : Resource)
  | rejected (err : GoError)
  | create (err : Error)
  deriving DecidableEq, Repr

/-- Embedding of `ResourceRegistry.Register`: the error returned and the store
as the call leaves it. -/
def Register {σ : Type} (m : Meta) (state : StateOps σ) (s : σ) (r : Registrable) :
    Option RegisterError × σ :=
  match r.definition with
  | none => (some (.notProvider r.resource), s)
  | some definition =>
      match m.NewResourceDefinition definition with
      | .error err => (some (.rejected err), s)
      | .ok r =>
          let res := state.Create s r
          (res.1.map RegisterError.create, res.2)

/-- The loop of `RegisterDefault` (lines 30-34) over the values still to be
registered. -/
def registerEach {σ : Type} (m : Meta) (state : StateOps σ) :
    List Registrable → σ → Option RegisterError × σ
  | [], s => (none, s)
  | r :: rest, s =>
      match Register m state s r with
      | (some err, s') => (some err, s')
      | (none, s') => registerEach m state rest s'

/-- Embedding of `ResourceRegistry.RegisterDefault`. -/
def RegisterDefault {σ : Type} (m : Meta) (state : StateOps σ) (s : σ) :
    Option RegisterError × σ :=
  registerEach m state [m.ResourceDefinition, m.Namespace] s

/-- A store together with the record of the creates issued against it. -/
structure Traced (σ : Type) where
  store : σ
  creates : List Resource

/-- The store operations that also record each create they are asked for. -/
def traced {σ : Type} (state : StateOps σ) : StateOps (Traced σ) where
  Create := fun t r =>
    ((state.Create t.store r).1,
     { store := (state.Create t.store r).2, creates := t.creates ++ [r] })

/-- A store for evaluation: the list of the resources created, a create of an
identity already present being refused as already existing. -/
def sampleState : StateOps (List Resource) where
  Create := fun s r =>
    if s.any (fun x => x.md.ns == r.md.ns && x.md.typ == r.md.typ && x.md.id == r.md.id) then
      (some (Inmem.ErrAlreadyExists { ns := r.md.ns, typ := r.md.typ, id := r.md.id }), s)
    else (none, s ++ [r])

/-- The definition resource the sample `meta` builds for a definition. -/
def sampleDefinitionResource (d : Rtestutils.ResourceDefinitionSpec) : Resource :=
  { md := { ns := "meta", typ := "ResourceDefinition", id := d.Typ, ver := some 1, owner := "",
            phase := .Running, finalizers := [], updated := { sec := 0, nsec := 0 } },
    spec := d.DefaultNamespace }

/-- A `meta` for evaluation: a definition with an empty type is rejected. -/
def sampleMeta : Meta where
  NewResourceDefinition := fun d =>
    if d.Typ = "" then .error (.other "invalid resource type")
    else .ok (sampleDefinitionResource d)
  ResourceDefinition :=
    { resource := sampleDefinitionResource { Typ := "ResourceDefinition",
                                             DefaultNamespace := "meta" },
      definition := some { Typ := "ResourceDefinition", DefaultNamespace := "meta" } }
  Namespace :=
    { resource := { md := { ns := "meta", typ := "Namespace", id := "", ver := none, owner := "",
                            phase := .Running, finalizers := [],
                            updated := { sec := 0, nsec := 0 } },
                    spec := "" },
      definition := some { Typ := "Namespace", DefaultNamespace := "meta" } }

end Registry

/-! ## Concrete stores used to evaluate the test helper -/

namespace Rtestutils

open Client

/-- A store holding a widget under each of the ids in `present`, its payload
being the id, and answering not-found for every other pointer. -/
def sampleStore (present : List String) : State where
  Get := fun p =>
    if p.id ∈ present then
      .ok { md := { ns := p.ns, typ := p.typ, id := p.id, ver := some 1, owner := "",
                    phase := .Running, finalizers := [],
                    updated := { sec := 0, nsec := 0 } },
            spec := p.id }
    else .error (Inmem.ErrNotFound p)
  WatchKind := fun _ => none

/-- An empty store on which `WatchKind` fails. -/
def brokenWatchStore : State where
  Get := fun p => .error (Inmem.ErrNotFound p)
  WatchKind := fun _ => some (.verbatim (.status .Unavailable "transport is closing"))

/-- An assertion function that has one failing assertion on the resource whose
payload is `"b"` and none on any other. -/
def sampleAssertion (r : Resource) : List String :=
  if r.spec = "b" then ["payload must not be b"] else []

/-- The resource definition of the widgets. -/
def sampleDefinition : ResourceDefinitionSpec :=
  { Typ := "Widget", DefaultNamespace := "default" }

end Rtestutils

/-! ## Transform controller options: properties -/

namespace Transform

/-- Running an option other than the two exclusive ones never panics and
leaves both policy flags as they were. -/
theorem run_other (opt : ControllerOption) (o : ControllerOptions)
    (h1 : opt ≠ .WithInputFinalizers) (h2 : opt ≠ .WithIgnoreTearingDownInputs) :
    ∃ o', opt.run o = .ok o' ∧ o'.inputFinalizers = o.inputFinalizers ∧
      o'.ignoreTearingDownInputs = o.ignoreTearingDownInputs := by
  cases opt <;> simp_all [ControllerOption.run]

/-- In a state where only `inputFinalizers` is set, every option but
`WithIgnoreTearingDownInputs` runs and keeps the state of the two flags. -/
theorem run_keep_finalizers (opt : ControllerOption) (o : ControllerOptions)
    (hf : o.inputFinalizers = true) (hg : o.ignoreTearingDownInputs = false)
    (h : opt ≠ .WithIgnoreTearingDownInputs) :
    ∃ o', opt.run o = .ok o' ∧ o'.inputFinalizers = true ∧
      o'.ignoreTearingDownInputs = false := by
  cases opt <;> simp_all [ControllerOption.run]

/-- In a state where only `ignoreTearingDownInputs` is set, every option but
`WithInputFinalizers` runs and keeps the state of the two flags. -/
theorem run_keep_ignore (opt : ControllerOption) (o : ControllerOptions)
    (hf : o.inputFinalizers = false) (hg : o.ignoreTearingDownInputs = true)
    (h : opt ≠ .WithInputFinalizers) :
    ∃ o', opt.run o = .ok o' ∧ o'.inputFinalizers = false ∧
      o'.ignoreTearingDownInputs = true := by
  cases opt <;> simp_all [ControllerOption.run]

/-- Once `inputFinalizers` alone is set, the application panics exactly at the
first `WithIgnoreTearingDownInputs`. -/
theorem applyFrom_finalizers (opts : List ControllerOption) :
    ∀ (i : Nat) (o : ControllerOptions),
      o.inputFinalizers = true → o.ignoreTearingDownInputs = false →
      (ControllerOption.WithIgnoreTearingDownInputs ∈ opts →
        applyFrom i opts o =
          .error (i + opts.indexOf ControllerOption.WithIgnoreTearingDownInputs, exclusiveMsg)) ∧
      (ControllerOption.WithIgnoreTearingDownInputs ∉ opts →
        ∃ o', applyFrom i opts o = .ok o' ∧ o'.inputFinalizers = true ∧
          o'.ignoreTearingDownInputs = false) := by
  induction opts with
  | nil => intro i o hf hg; simp [applyFrom, hf, hg]
  | cons opt rest ih =>
    intro i o hf hg
    by_cases h2 : opt = .WithIgnoreTearingDownInputs
    · subst h2
      simp [applyFrom, ControllerOption.run, hf]
    · obtain ⟨o', hr, hf', hg'⟩ := run_keep_finalizers opt o hf hg h2
      have := ih (i + 1) o' hf' hg'
      have hne : ¬ ControllerOption.WithIgnoreTearingDownInputs = opt := fun h => h2 h.symm
      simp only [applyFrom, hr, List.mem_cons, hne, false_or, List.indexOf_cons_ne _ h2]
      refine ⟨fun hm => ?_, this.2⟩
      rw [this.1 hm, Nat.succ_eq_add_one]
      congr 2
      omega

/-- Once `ignoreTearingDownInputs` alone is set, the application panics exactly
at the first `WithInputFinalizers`. -/
theorem applyFrom_ignore (opts : List ControllerOption) :
    ∀ (i : Nat) (o : ControllerOptions),
      o.inputFinalizers = false → o.ignoreTearingDownInputs = true →
      (ControllerOption.WithInputFinalizers ∈ opts →
        applyFrom i opts o =
          .error (i + opts.indexOf ControllerOption.WithInputFinalizers, exclusiveMsg)) ∧
      (ControllerOption.WithInputFinalizers ∉ opts →
        ∃ o', applyFrom i opts o = .ok o' ∧ o'.inputFinalizers = false ∧
          o'.ignoreTearingDownInputs = true) := by
  induction opts with
  | nil => intro i o hf hg; simp [applyFrom, hf, hg]
  | cons opt rest ih =>
    intro i o hf hg
    by_cases h1 : opt = .WithInputFinalizers
    · subst h1
      simp [applyFrom, ControllerOption.run, hg]
    · obtain ⟨o', hr, hf', hg'⟩ := run_keep_ignore opt o hf hg h1
      have := ih (i + 1) o' hf' hg'
      have hne : ¬ ControllerOption.WithInputFinalizers = opt := fun h => h1 h.symm
      simp only [applyFrom, hr, List.mem_cons, hne, false_or, List.indexOf_cons_ne _ h1]
      refine ⟨fun hm => ?_, this.2⟩
      rw [this.1 hm, Nat.succ_eq_add_one]
      congr 2
      omega

/-- From a state with neither flag set, the application panics exactly when
both exclusive options occur, at the later of their first occurrences. -/
theorem applyFrom_neither (opts : List ControllerOption) :
    ∀ (i : Nat) (o : ControllerOptions),
      o.inputFinalizers = false → o.ignoreTearingDownInputs = false →
      ((ControllerOption.WithInputFinalizers ∈ opts ∧
          ControllerOption.WithIgnoreTearingDownInputs ∈ opts) →
        applyFrom i opts o =
          .error (i + max (opts.indexOf ControllerOption.WithInputFinalizers)
            (opts.indexOf ControllerOption.WithIgnoreTearingDownInputs), exclusiveMsg)) ∧
      (¬ (ControllerOption.WithInputFinalizers ∈ opts ∧
          ControllerOption.WithIgnoreTearingDownInputs ∈ opts) →
        ∃ o', applyFrom i opts o = .ok o' ∧
          ¬ (o'.inputFinalizers = true ∧ o'.ignoreTearingDownInputs = true)) := by
  induction opts with
  | nil => intro i o hf hg; simp [applyFrom, hf]
  | cons opt rest ih =>
    intro i o hf hg
    by_cases h1 : opt = .WithInputFinalizers
    · subst h1
      have key := applyFrom_finalizers rest (i + 1) { o with inputFinalizers := true } rfl hg
      have hrun : ControllerOption.WithInputFinalizers.run o
          = .ok { o with inputFinalizers := true } := by
        simp [ControllerOption.run, hg]
      have hne : ControllerOption.WithInputFinalizers ≠
          ControllerOption.WithIgnoreTearingDownInputs := by decide
      simp only [applyFrom, hrun, List.mem_cons, true_or, true_and, hne.symm, false_or,
        List.indexOf_cons_self, List.indexOf_cons_ne _ hne]
      constructor
      · intro hm
        rw [key.1 hm]
        congr 2
        simp only [Nat.succ_eq_add_one]
        omega
      · intro hm
        obtain ⟨o', h, hf', hg'⟩ := key.2 hm
        exact ⟨o', h, by simp [hg']⟩
    · by_cases h2 : opt = .WithIgnoreTearingDownInputs
      · subst h2
        have key := applyFrom_ignore rest (i + 1) { o with ignoreTearingDownInputs := true } hf rfl
        have hrun : ControllerOption.WithIgnoreTearingDownInputs.run o
            = .ok { o with ignoreTearingDownInputs := true } := by
          simp [ControllerOption.run, hf]
        have hne : ControllerOption.WithIgnoreTearingDownInputs ≠
            ControllerOption.WithInputFinalizers := by decide
        simp only [applyFrom, hrun, List.mem_cons, true_or, and_true, hne.symm, false_or,
          List.indexOf_cons_self, List.indexOf_cons_ne _ hne]
        constructor
        · intro hm
          rw [key.1 hm]
          congr 2
          simp only [Nat.succ_eq_add_one]
          omega
        · intro hm
          obtain ⟨o', h, hf', hg'⟩ := key.2 hm
          exact ⟨o', h, by simp [hf']⟩
      · obtain ⟨o', hr, hf', hg'⟩ := run_other opt o h1 h2
        have key := ih (i + 1) o' (hf'.trans hf) (hg'.trans hg)
        have hne1 : ¬ ControllerOption.WithInputFinalizers = opt := fun h => h1 h.symm
        have hne2 : ¬ ControllerOption.WithIgnoreTearingDownInputs = opt := fun h => h2 h.symm
        simp only [applyFrom, hr, List.mem_cons, hne1, hne2, false_or,
          List.indexOf_cons_ne _ h1, List.indexOf_cons_ne _ h2]
        refine ⟨fun hm => ?_, key.2⟩
        rw [key.1 hm]
        congr 2
        simp only [Nat.succ_eq_add_one]
        omega

/-- C1: options applied in order to a record with neither policy flag set (a
fresh `ControllerOptions`) panic if and only if the list holds both
`WithInputFinalizers` and `WithIgnoreTearingDownInputs`; the panic happens at
the later of the two first occurrences, with the mutual-exclusion message; and a
record configured without a panic never has both flags set. -/
theorem options_panic_iff_both_policies (opts : List ControllerOption) (o : ControllerOptions)
    (hf : o.inputFinalizers = false) (hg : o.ignoreTearingDownInputs = false) :
    ((∃ e, applyOptions opts o = .error e) ↔
      (ControllerOption.WithInputFinalizers ∈ opts ∧
        ControllerOption.WithIgnoreTearingDownInputs ∈ opts)) ∧
    (∀ i msg, applyOptions opts o = .error (i, msg) →
      i = max (opts.indexOf ControllerOption.WithInputFinalizers)
            (opts.indexOf ControllerOption.WithIgnoreTearingDownInputs) ∧
      msg = exclusiveMsg) ∧
    (∀ o', applyOptions opts o = .ok o' →
      ¬ (o'.inputFinalizers = true ∧ o'.ignoreTearingDownInputs = true)) := by
  have key := applyFrom_neither opts 0 o hf hg
  unfold applyOptions
  by_cases hb : ControllerOption.WithInputFinalizers ∈ opts ∧
      ControllerOption.WithIgnoreTearingDownInputs ∈ opts
  · have h := key.1 hb
    rw [h]
    refine ⟨⟨fun _ => hb, fun _ => ⟨_, rfl⟩⟩, ?_, ?_⟩
    · intro i msg he
      injection he with he
      injection he with h1 h2
      exact ⟨by omega, h2.symm⟩
    · intro o' he
      cases he
  · obtain ⟨o', h, hno⟩ := key.2 hb
    rw [h]
    refine ⟨⟨fun ⟨e, he⟩ => (by cases he), fun hc => absurd hc hb⟩, ?_, ?_⟩
    · intro i msg he
      cases he
    · intro o'' he
      injection he with he
      subst he
      exact hno

/-- Witness for C1 on the zero value: finalizers, an output kind, then the
ignore-tearing-down policy. -/
theorem options_panic_iff_both_policies_witness :
    applyOptions [.WithInputFinalizers, .WithOutputKind 1, .WithIgnoreTearingDownInputs] fresh
        = .error (2, exclusiveMsg) ∧
    ((∃ e, applyOptions [.WithInputFinalizers, .WithOutputKind 1,
        .WithIgnoreTearingDownInputs] fresh = .error e) ↔
      (ControllerOption.WithInputFinalizers ∈
          [ControllerOption.WithInputFinalizers, .WithOutputKind 1,
            .WithIgnoreTearingDownInputs] ∧
        ControllerOption.WithIgnoreTearingDownInputs ∈
          [ControllerOption.WithInputFinalizers, .WithOutputKind 1,
            .WithIgnoreTearingDownInputs])) :=
  ⟨rfl, (options_panic_iff_both_policies
    [.WithInputFinalizers, .WithOutputKind 1, .WithIgnoreTearingDownInputs] fresh rfl rfl).1⟩

end Transform

/-! ## Remote adapter: translation of transport failures -/

namespace Client

/-- C2: when the transport call of `Adapter.Update` fails with `err`, the
caller's resource is left as it was, and the error returned is: for status
not-found a NotFound error, for permission-denied an OwnerConflict error, for
invalid-argument a PhaseConflict error, for failed-precondition a Conflict
error that is neither OwnerConflict nor PhaseConflict, each wrapping `err`,
and for every other status `err` itself. -/
theorem update_transport_failure (adapter : Adapter) (lib : Library)
    (newResource protoR : Resource) (marshaled : WireResource) (opts : UpdateOptions)
    (err : GoError)
    (hfrom : lib.FromResource newResource = .ok protoR)
    (hmarshal : lib.Marshal protoR = .ok marshaled)
    (hcall : adapter.client.Update
        { NewResource := marshaled, Owner := opts.Owner,
          ExpectedPhase := (match opts.ExpectedPhase with
                            | some phase => some (lib.PhaseString phase)
                            | none => none) } = .error err) :
    (adapter.Update lib newResource opts).2 = newResource ∧
    ∃ e, (adapter.Update lib newResource opts).1 = some e ∧
      (statusCode err = .NotFound →
        e = .notFound { err := err } ∧ IsNotFoundError e = true) ∧
      (statusCode err = .PermissionDenied →
        e = .ownerConflict { eConflict := { err := err } } ∧ IsOwnerConflictError e = true) ∧
      (statusCode err = .InvalidArgument →
        e = .phaseConflict { eConflict := { err := err } } ∧ IsPhaseConflictError e = true) ∧
      (statusCode err = .FailedPrecondition →
        e = .conflict { err := err } ∧ IsConflictError e = true ∧
          IsOwnerConflictError e = false ∧ IsPhaseConflictError e = false) ∧
      (statusCode err ≠ .NotFound → statusCode err ≠ .PermissionDenied →
        statusCode err ≠ .InvalidArgument → statusCode err ≠ .FailedPrecondition →
        e = .verbatim err) := by
  simp only [Adapter.Update, hfrom, hmarshal, hcall]
  cases h : statusCode err <;> simp [IsNotFoundError, IsConflictError, IsOwnerConflictError,
    IsPhaseConflictError]

/-- Witness for C2: an update refused with failed-precondition. -/
theorem update_transport_failure_witness :
    ({ client := failingClient (.status .FailedPrecondition "conflict") } : Adapter).Update
        sampleLibrary sampleResource { Owner := "", ExpectedPhase := some .Running }
      = (some (.conflict { err := .status .FailedPrecondition "conflict" }), sampleResource) ∧
    (({ client := failingClient (.status .FailedPrecondition "conflict") } : Adapter).Update
        sampleLibrary sampleResource { Owner := "", ExpectedPhase := some .Running }).2
      = sampleResource :=
  ⟨rfl, (update_transport_failure
    { client := failingClient (.status .FailedPrecondition "conflict") } sampleLibrary
    sampleResource sampleResource
    { Metadata := some { Namespace := "ns", Typ := "Widget", Id := "w1",
                         Version := "undefined", Owner := "", Phase := "running",
                         Updated := some { seconds := 0, nanos := 0 }, Finalizers := [] },
      Spec := "S1" }
    { Owner := "", ExpectedPhase := some .Running }
    (.status .FailedPrecondition "conflict") rfl rfl rfl).1⟩

/-- C3 fails as stated: with a transport that refuses every request,
`Get` and `List` hand a permission-denied, an already-exists and a
failed-precondition status on verbatim, `Create` does so for
failed-precondition, `Update` and `Destroy` for already-exists, and `List`
hands on verbatim a not-found status met while receiving; a verbatim error is
of none of the store error kinds. -/
theorem verbatim_statuses_counterexample :
    (({ client := failingClient (.status .PermissionDenied "denied") } : Adapter).Get
        sampleLibrary samplePointer { UnmarshalOptions := { SkipProtobufUnmarshal := false } }
      = .error (.verbatim (.status .PermissionDenied "denied")) ∧
     IsOwnerConflictError (.verbatim (.status .PermissionDenied "denied")) = false) ∧
    (({ client := failingClient (.status .AlreadyExists "exists") } : Adapter).Get
        sampleLibrary samplePointer { UnmarshalOptions := { SkipProtobufUnmarshal := false } }
      = .error (.verbatim (.status .AlreadyExists "exists")) ∧
     ({ client := failingClient (.status .FailedPrecondition "pending") } : Adapter).Get
        sampleLibrary samplePointer { UnmarshalOptions := { SkipProtobufUnmarshal := false } }
      = .error (.verbatim (.status .FailedPrecondition "pending")) ∧
     IsConflictError (.verbatim (.status .AlreadyExists "exists")) = false ∧
     IsConflictError (.verbatim (.status .FailedPrecondition "pending")) = false) ∧
    (({ client := failingClient (.status .PermissionDenied "denied") } : Adapter).List
        sampleLibrary { ns := "ns", typ := "Widget" }
        { LabelQuery := { Terms := [] }, IDQuery := { Regexp := none },
          UnmarshalOptions := { SkipProtobufUnmarshal := false } }
      = ([], some (.verbatim (.status .PermissionDenied "denied"))) ∧
     ({ client := failingClient (.status .AlreadyExists "exists") } : Adapter).List
        sampleLibrary { ns := "ns", typ := "Widget" }
        { LabelQuery := { Terms := [] }, IDQuery := { Regexp := none },
          UnmarshalOptions := { SkipProtobufUnmarshal := false } }
      = ([], some (.verbatim (.status .AlreadyExists "exists"))) ∧
     ({ client := failingClient (.status .FailedPrecondition "pending") } : Adapter).List
        sampleLibrary { ns := "ns", typ := "Widget" }
        { LabelQuery := { Terms := [] }, IDQuery := { Regexp := none },
          UnmarshalOptions := { SkipProtobufUnmarshal := false } }
      = ([], some (.verbatim (.status .FailedPrecondition "pending"))) ∧
     ({ client := answeringClient none [.error (.status .NotFound "gone")] [] } : Adapter).List
        sampleLibrary { ns := "ns", typ := "Widget" }
        { LabelQuery := { Terms := [] }, IDQuery := { Regexp := none },
          UnmarshalOptions := { SkipProtobufUnmarshal := false } }
      = ([], some (.verbatim (.status .NotFound "gone"))) ∧
     IsNotFoundError (.verbatim (.status .NotFound "gone")) = false) ∧
    (({ client := failingClient (.status .FailedPrecondition "pending") } : Adapter).Create
        sampleLibrary sampleResource { Owner := "" }
      = (some (.verbatim (.status .FailedPrecondition "pending")), sampleResource)) ∧
    (({ client := failingClient (.status .AlreadyExists "exists") } : Adapter).Update
        sampleLibrary sampleResource { Owner := "", ExpectedPhase := none }
      = (some (.verbatim (.status .AlreadyExists "exists")), sampleResource)) ∧
    (({ client := failingClient (.status .AlreadyExists "exists") } : Adapter).Destroy
        samplePointer { Owner := "" }
      = some (.verbatim (.status .AlreadyExists "exists"))) :=
  ⟨⟨rfl, rfl⟩, ⟨rfl, rfl, rfl, rfl⟩, ⟨rfl, rfl, rfl, rfl, rfl⟩, rfl, rfl, rfl⟩

/-- C3 as amended: when the request call of an operation fails with `err` (for
`List`, the call that opens the stream), a not-found status is returned as
NotFound by all five operations; a permission-denied status is returned as
OwnerConflict by `Create`, `Update` and `Destroy`; an already-exists status is
returned as Conflict by `Create`; a failed-precondition status is returned as
Conflict by `Update` and `Destroy`. -/
theorem request_failure_translation (adapter : Adapter) (lib : Library) (err : GoError)
    (resourcePointer : Pointer) (resourceKind : Kind) (r : Resource)
    (gopts : GetOptions) (lopts : ListOptions) (copts : CreateOptions)
    (uopts : UpdateOptions) (dopts : DestroyOptions) :
    (adapter.client.Get
        { Namespace := resourcePointer.ns, Typ := resourcePointer.typ,
          Id := resourcePointer.id } = .error err →
      statusCode err = .NotFound →
      adapter.Get lib resourcePointer gopts = .error (.notFound { err := err })) ∧
    (∀ labelQuery,
      (if lopts.LabelQuery.Terms.length > 0
        then lib.transformLabelQuery lopts.LabelQuery else .ok none) = .ok labelQuery →
      adapter.client.List
        { Namespace := resourceKind.ns, Typ := resourceKind.typ,
          Options := { LabelQuery := labelQuery,
                       IdQuery := lib.transformIDQuery lopts.IDQuery } } = .error err →
      statusCode err = .NotFound →
      (adapter.List lib resourceKind lopts).2 = some (.notFound { err := err })) ∧
    (∀ protoR marshaled, lib.FromResource r = .ok protoR →
      lib.Marshal protoR = .ok marshaled →
      adapter.client.Create { Resource := marshaled, Owner := copts.Owner } = .error err →
      (statusCode err = .NotFound →
        (adapter.Create lib r copts).1 = some (.notFound { err := err })) ∧
      (statusCode err = .PermissionDenied →
        (adapter.Create lib r copts).1
          = some (.ownerConflict { eConflict := { err := err } })) ∧
      (statusCode err = .AlreadyExists →
        (adapter.Create lib r copts).1 = some (.conflict { err := err }))) ∧
    (∀ protoR marshaled, lib.FromResource r = .ok protoR →
      lib.Marshal protoR = .ok marshaled →
      adapter.client.Update
        { NewResource := marshaled, Owner := uopts.Owner,
          ExpectedPhase := (match uopts.ExpectedPhase with
                            | some phase => some (lib.PhaseString phase)
                            | none => none) } = .error err →
      (statusCode err = .NotFound →
        (adapter.Update lib r uopts).1 = some (.notFound { err := err })) ∧
      (statusCode err = .PermissionDenied →
        (adapter.Update lib r uopts).1
          = some (.ownerConflict { eConflict := { err := err } })) ∧
      (statusCode err = .FailedPrecondition →
        (adapter.Update lib r uopts).1 = some (.conflict { err := err }))) ∧
    (adapter.client.Destroy
        { Namespace := resourcePointer.ns, Typ := resourcePointer.typ,
          Id := resourcePointer.id, Owner := dopts.Owner } = .error err →
      (statusCode err = .NotFound →
        adapter.Destroy resourcePointer dopts = some (.notFound { err := err })) ∧
      (statusCode err = .PermissionDenied →
        adapter.Destroy resourcePointer dopts
          = some (.ownerConflict { eConflict := { err := err } })) ∧
      (statusCode err = .FailedPrecondition →
        adapter.Destroy resourcePointer dopts = some (.conflict { err := err }))) ∧
    IsNotFoundError (.notFound { err := err }) = true ∧
    IsOwnerConflictError (.ownerConflict { eConflict := { err := err } }) = true ∧
    IsConflictError (.conflict { err := err }) = true := by
  refine ⟨?_, ?_, ?_, ?_, ?_, rfl, rfl, rfl⟩
  · intro hget h
    simp [Adapter.Get, hget, h]
  · intro labelQuery hquery hlist h
    simp [Adapter.List, hquery, hlist, h]
  · intro protoR marshaled hfrom hmarshal hcreate
    refine ⟨fun h => ?_, fun h => ?_, fun h => ?_⟩ <;>
      simp [Adapter.Create, hfrom, hmarshal, hcreate, h]
  · intro protoR marshaled hfrom hmarshal hupdate
    refine ⟨fun h => ?_, fun h => ?_, fun h => ?_⟩ <;>
      simp [Adapter.Update, hfrom, hmarshal, hupdate, h]
  · intro hdestroy
    refine ⟨fun h => ?_, fun h => ?_, fun h => ?_⟩ <;>
      simp [Adapter.Destroy, hdestroy, h]

/-- Witness for the amended C3: a transport that answers every request with
not-found. -/
theorem request_failure_translation_witness :
    ({ client := failingClient (.status .NotFound "gone") } : Adapter).Get sampleLibrary
        samplePointer { UnmarshalOptions := { SkipProtobufUnmarshal := false } }
      = .error (.notFound { err := .status .NotFound "gone" }) ∧
    (({ client := failingClient (.status .NotFound "gone") } : Adapter).Create sampleLibrary
        sampleResource { Owner := "" }).1
      = some (.notFound { err := .status .NotFound "gone" }) :=
  ⟨(request_failure_translation { client := failingClient (.status .NotFound "gone") }
      sampleLibrary (.status .NotFound "gone") samplePointer { ns := "ns", typ := "Widget" }
      sampleResource { UnmarshalOptions := { SkipProtobufUnmarshal := false } }
      sampleListOptions { Owner := "" } { Owner := "", ExpectedPhase := none }
      { Owner := "" }).1 rfl rfl,
   ((request_failure_translation { client := failingClient (.status .NotFound "gone") }
      sampleLibrary (.status .NotFound "gone") samplePointer { ns := "ns", typ := "Widget" }
      sampleResource { UnmarshalOptions := { SkipProtobufUnmarshal := false } }
      sampleListOptions { Owner := "" } { Owner := "", ExpectedPhase := none }
      { Owner := "" }).2.2.1 _ _ rfl rfl rfl).1 rfl⟩

/-- C4: `Adapter.Destroy` returns nil exactly when the transport call
succeeds; when the call fails with `err` it returns a NotFound error for status
not-found, an OwnerConflict error for permission-denied, for
failed-precondition a Conflict error that is neither OwnerConflict nor
PhaseConflict, each wrapping `err`, and `err` itself for every other
status. -/
theorem destroy_result (adapter : Adapter) (resourcePointer : Pointer) (opts : DestroyOptions) :
    (adapter.Destroy resourcePointer opts = none ↔
      ∃ u, adapter.client.Destroy
        { Namespace := resourcePointer.ns, Typ := resourcePointer.typ,
          Id := resourcePointer.id, Owner := opts.Owner } = .ok u) ∧
    ∀ err, adapter.client.Destroy
        { Namespace := resourcePointer.ns, Typ := resourcePointer.typ,
          Id := resourcePointer.id, Owner := opts.Owner } = .error err →
      ∃ e, adapter.Destroy resourcePointer opts = some e ∧
        (statusCode err = .NotFound →
          e = .notFound { err := err } ∧ IsNotFoundError e = true) ∧
        (statusCode err = .PermissionDenied →
          e = .ownerConflict { eConflict := { err := err } } ∧
            IsOwnerConflictError e = true) ∧
        (statusCode err = .FailedPrecondition →
          e = .conflict { err := err } ∧ IsConflictError e = true ∧
            IsOwnerConflictError e = false ∧ IsPhaseConflictError e = false) ∧
        (statusCode err ≠ .NotFound → statusCode err ≠ .PermissionDenied →
          statusCode err ≠ .FailedPrecondition → e = .verbatim err) := by
  constructor
  · unfold Adapter.Destroy
    cases hc : adapter.client.Destroy
        { Namespace := resourcePointer.ns, Typ := resourcePointer.typ,
          Id := resourcePointer.id, Owner := opts.Owner } with
    | error err => cases h : statusCode err <;> simp [h]
    | ok u => simp
  · intro err hc
    simp only [Adapter.Destroy, hc]
    cases h : statusCode err <;> simp [IsNotFoundError, IsConflictError, IsOwnerConflictError,
      IsPhaseConflictError]

/-- Witness for C4: a destroy blocked by pending finalizers, which the
transport reports as failed-precondition. -/
theorem destroy_result_witness :
    ∃ e, ({ client := failingClient (.status .FailedPrecondition "pending") } : Adapter).Destroy
        samplePointer { Owner := "" } = some e ∧
      e = .conflict { err := .status .FailedPrecondition "pending" } ∧
      IsOwnerConflictError e = false ∧ IsPhaseConflictError e = false := by
  obtain ⟨e, he, _, _, h, _⟩ :=
    (destroy_result { client := failingClient (.status .FailedPrecondition "pending") }
      samplePointer { Owner := "" }).2 (.status .FailedPrecondition "pending") rfl
  exact ⟨e, he, (h rfl).1, (h rfl).2.2⟩

/-! ## Remote adapter: metadata copied back on success -/

/-- On success `updateResourceMetadata` stores the parsed version, the
converted timestamp and the owner of the source and changes nothing else,
provided a successful `SetOwner` does what its name says. -/
theorem updateResourceMetadata_ok (lib : Library) (source : Option WireResource)
    (targetRes : Resource)
    (hOwner : ∀ md o md', lib.SetOwner md o = (none, md') → md' = { md with owner := o })
    (hret : (updateResourceMetadata lib source targetRes).1 = none) :
    ∃ version, lib.ParseVersion (GetVersion (GetMetadata source)) = .ok version ∧
      (updateResourceMetadata lib source targetRes).2 =
        { targetRes with md := { targetRes.md with
            ver := version,
            updated := lib.AsTime (GetUpdated (GetMetadata source)),
            owner := GetOwner (GetMetadata source) } } := by
  unfold updateResourceMetadata at hret ⊢
  cases hv : lib.ParseVersion (GetVersion (GetMetadata source)) with
  | error err => simp [hv] at hret
  | ok version =>
    simp only [hv] at hret ⊢
    refine ⟨version, rfl, ?_⟩
    cases hs : lib.SetOwner
        ((targetRes.md.SetVersion version).SetUpdated
          (lib.AsTime (GetUpdated (GetMetadata source))))
        (GetOwner (GetMetadata source)) with
    | mk e md' =>
      rw [hs] at hret
      cases e with
      | some e => simp at hret
      | none =>
        have := hOwner _ _ _ hs
        simp [this, Metadata.SetVersion, Metadata.SetUpdated]

/-- When `updateResourceMetadata` can parse the version of the source and
`SetOwner` reports no error, it returns nil and leaves on the target the
parsed version, the converted timestamp and the metadata `SetOwner` gives. -/
theorem updateResourceMetadata_success (lib : Library) (source : Option WireResource)
    (targetRes : Resource) (version : Version) (md' : Metadata)
    (hv : lib.ParseVersion (GetVersion (GetMetadata source)) = .ok version)
    (hs : lib.SetOwner
        ((targetRes.md.SetVersion version).SetUpdated
          (lib.AsTime (GetUpdated (GetMetadata source))))
        (GetOwner (GetMetadata source)) = (none, md')) :
    updateResourceMetadata lib source targetRes = (none, { targetRes with md := md' }) := by
  simp [updateResourceMetadata, hv, hs]

/-- C5: `Adapter.Create` and `Adapter.Update` return nil exactly on the path on
which the encoding, the transport call, the parsing of the version in the
response and `SetOwner` all succeed, and on that path the caller's resource
carries the version, the updated timestamp and the owner of the resource in
the response, everything else, namespace, type and id included, being as
before. Conversely a nil error implies that the transport answered with a
response from which these three fields were copied. `SetOwner` is assumed to
store the owner it is given, and nothing else, whenever it reports no
error. -/
theorem create_update_copy_back (adapter : Adapter) (lib : Library) (r : Resource)
    (copts : CreateOptions) (uopts : UpdateOptions)
    (hOwner : ∀ md o md', lib.SetOwner md o = (none, md') → md' = { md with owner := o }) :
    ((adapter.Create lib r copts).1 = none →
      ∃ protoR marshaled resp, lib.FromResource r = .ok protoR ∧
        lib.Marshal protoR = .ok marshaled ∧
        adapter.client.Create { Resource := marshaled, Owner := copts.Owner } = .ok resp ∧
        lib.ParseVersion (GetVersion (GetMetadata resp.Resource))
          = .ok (adapter.Create lib r copts).2.md.ver ∧
        (adapter.Create lib r copts).2.md.updated
          = lib.AsTime (GetUpdated (GetMetadata resp.Resource)) ∧
        (adapter.Create lib r copts).2.md.owner = GetOwner (GetMetadata resp.Resource) ∧
        (adapter.Create lib r copts).2.md.ns = r.md.ns ∧
        (adapter.Create lib r copts).2.md.typ = r.md.typ ∧
        (adapter.Create lib r copts).2.md.id = r.md.id) ∧
    ((adapter.Update lib r uopts).1 = none →
      ∃ protoR marshaled resp, lib.FromResource r = .ok protoR ∧
        lib.Marshal protoR = .ok marshaled ∧
        adapter.client.Update
          { NewResource := marshaled, Owner := uopts.Owner,
            ExpectedPhase := (match uopts.ExpectedPhase with
                              | some phase => some (lib.PhaseString phase)
                              | none => none) } = .ok resp ∧
        lib.ParseVersion (GetVersion (GetMetadata resp.Resource))
          = .ok (adapter.Update lib r uopts).2.md.ver ∧
        (adapter.Update lib r uopts).2.md.updated
          = lib.AsTime (GetUpdated (GetMetadata resp.Resource)) ∧
        (adapter.Update lib r uopts).2.md.owner = GetOwner (GetMetadata resp.Resource) ∧
        (adapter.Update lib r uopts).2.md.ns = r.md.ns ∧
        (adapter.Update lib r uopts).2.md.typ = r.md.typ ∧
        (adapter.Update lib r uopts).2.md.id = r.md.id) ∧
    (∀ protoR marshaled resp version md', lib.FromResource r = .ok protoR →
      lib.Marshal protoR = .ok marshaled →
      adapter.client.Create { Resource := marshaled, Owner := copts.Owner } = .ok resp →
      lib.ParseVersion (GetVersion (GetMetadata resp.Resource)) = .ok version →
      lib.SetOwner
        ((r.md.SetVersion version).SetUpdated
          (lib.AsTime (GetUpdated (GetMetadata resp.Resource))))
        (GetOwner (GetMetadata resp.Resource)) = (none, md') →
      adapter.Create lib r copts
        = (none, { r with md := { r.md with
            ver := version,
            updated := lib.AsTime (GetUpdated (GetMetadata resp.Resource)),
            owner := GetOwner (GetMetadata resp.Resource) } })) ∧
    (∀ protoR marshaled resp version md', lib.FromResource r = .ok protoR →
      lib.Marshal protoR = .ok marshaled →
      adapter.client.Update
        { NewResource := marshaled, Owner := uopts.Owner,
          ExpectedPhase := (match uopts.ExpectedPhase with
                            | some phase => some (lib.PhaseString phase)
                            | none => none) } = .ok resp →
      lib.ParseVersion (GetVersion (GetMetadata resp.Resource)) = .ok version →
      lib.SetOwner
        ((r.md.SetVersion version).SetUpdated
          (lib.AsTime (GetUpdated (GetMetadata resp.Resource))))
        (GetOwner (GetMetadata resp.Resource)) = (none, md') →
      adapter.Update lib r uopts
        = (none, { r with md := { r.md with
            ver := version,
            updated := lib.AsTime (GetUpdated (GetMetadata resp.Resource)),
            owner := GetOwner (GetMetadata resp.Resource) } })) := by
  refine ⟨?_, ?_, ?_, ?_⟩
  · intro hret
    unfold Adapter.Create at hret ⊢
    cases hf : lib.FromResource r with
    | error err => simp [hf] at hret
    | ok protoR =>
      cases hm : lib.Marshal protoR with
      | error err => simp [hf, hm] at hret
      | ok marshaled =>
        cases hc : adapter.client.Create { Resource := marshaled, Owner := copts.Owner } with
        | error err =>
          simp only [hf, hm, hc] at hret
          cases h : statusCode err <;> simp [h] at hret
        | ok resp =>
          simp only [hf, hm, hc] at hret ⊢
          obtain ⟨version, hv, hres⟩ := updateResourceMetadata_ok lib resp.Resource r hOwner hret
          refine ⟨protoR, marshaled, resp, rfl, hm, hc, ?_⟩
          rw [hres]
          exact ⟨hv, rfl, rfl, rfl, rfl, rfl⟩
  · intro hret
    unfold Adapter.Update at hret ⊢
    cases hf : lib.FromResource r with
    | error err => simp [hf] at hret
    | ok protoR =>
      cases hm : lib.Marshal protoR with
      | error err => simp [hf, hm] at hret
      | ok marshaled =>
        cases hc : adapter.client.Update
            { NewResource := marshaled, Owner := uopts.Owner,
              ExpectedPhase := (match uopts.ExpectedPhase with
                                | some phase => some (lib.PhaseString phase)
                                | none => none) } with
        | error err =>
          simp only [hf, hm, hc] at hret
          cases h : statusCode err <;> simp [h] at hret
        | ok resp =>
          simp only [hf, hm, hc] at hret ⊢
          obtain ⟨version, hv, hres⟩ := updateResourceMetadata_ok lib resp.Resource r hOwner hret
          refine ⟨protoR, marshaled, resp, rfl, hm, hc, ?_⟩
          rw [hres]
          exact ⟨hv, rfl, rfl, rfl, rfl, rfl⟩
  · intro protoR marshaled resp version md' hf hm hc hv hs
    have hmd := hOwner _ _ _ hs
    simp only [Adapter.Create, hf, hm, hc]
    rw [updateResourceMetadata_success lib resp.Resource r version md' hv hs, hmd]
    rfl
  · intro protoR marshaled resp version md' hf hm hc hv hs
    have hmd := hOwner _ _ _ hs
    simp only [Adapter.Update, hf, hm, hc]
    rw [updateResourceMetadata_success lib resp.Resource r version md' hv hs, hmd]
    rfl

/-- The sample `SetOwner` stores the owner and nothing else whenever it
reports no error. -/
theorem sampleLibrary_SetOwner (md : Metadata) (o : Owner) (md' : Metadata)
    (h : sampleLibrary.SetOwner md o = (none, md')) : md' = { md with owner := o } := by
  simp only [sampleLibrary] at h
  split at h
  · exact (Prod.mk.inj h).2.symm
  · simp at h

/-- Witness for C5: the transport answers a create and an update with version
2, owner `"ctrl"` and a timestamp; each call returns nil and the three fields
are on the caller's resource. -/
theorem create_update_copy_back_witness :
    ({ client := answeringClient (some sampleWire) [] [] } : Adapter).Create
        sampleLibrary sampleResource { Owner := "ctrl" }
      = (none, { sampleResource with md := { sampleResource.md with
          ver := some 2, updated := { sec := 5, nsec := 7 }, owner := "ctrl" } }) ∧
    ({ client := answeringClient (some sampleWire) [] [] } : Adapter).Update
        sampleLibrary sampleResource { Owner := "ctrl", ExpectedPhase := some .Running }
      = (none, { sampleResource with md := { sampleResource.md with
          ver := some 2, updated := { sec := 5, nsec := 7 }, owner := "ctrl" } }) ∧
    (∃ protoR marshaled resp, sampleLibrary.FromResource sampleResource = .ok protoR ∧
      sampleLibrary.Marshal protoR = .ok marshaled ∧
      (answeringClient (some sampleWire) [] []).Update
        { NewResource := marshaled, Owner := "ctrl",
          ExpectedPhase := some (sampleLibrary.PhaseString .Running) } = .ok resp ∧
      sampleLibrary.ParseVersion (GetVersion (GetMetadata resp.Resource)) = .ok (some 2)) :=
  ⟨(create_update_copy_back { client := answeringClient (some sampleWire) [] [] }
      sampleLibrary sampleResource { Owner := "ctrl" }
      { Owner := "ctrl", ExpectedPhase := some .Running } sampleLibrary_SetOwner).2.2.1
      _ _ { Resource := some sampleWire } (some 2) _ rfl rfl rfl rfl rfl,
   (create_update_copy_back { client := answeringClient (some sampleWire) [] [] }
      sampleLibrary sampleResource { Owner := "ctrl" }
      { Owner := "ctrl", ExpectedPhase := some .Running } sampleLibrary_SetOwner).2.2.2
      _ _ { Resource := some sampleWire } (some 2) _ rfl rfl rfl rfl rfl,
   by
    obtain ⟨protoR, marshaled, resp, h1, h2, h3, h4, _⟩ :=
      (create_update_copy_back { client := answeringClient (some sampleWire) [] [] }
        sampleLibrary sampleResource { Owner := "ctrl" }
        { Owner := "ctrl", ExpectedPhase := some .Running } sampleLibrary_SetOwner).2.1 rfl
    exact ⟨protoR, marshaled, resp, h1, h2, h3, h4⟩⟩

/-! ## Remote adapter: opening a watch -/

/-- What `startWatch` does with each shape of the opened stream. -/
theorem startWatch_cases (lib : Library) (send : Nat → Bool)
    (opened : Except GoError (Stream WatchResponse)) (skip : Bool) :
    (∀ f0 cli, opened = .ok (.ok f0 :: cli) →
      (startWatch opened skip).err = none ∧
      (startWatch opened skip).task = some (cli, skip) ∧
      (startWatch opened skip).events lib send = (watchAdapter lib send skip 0 cli).events) ∧
    (∀ err, opened = .error err →
      (startWatch opened skip).err = some (.verbatim err) ∧
      (startWatch opened skip).task = none ∧
      (startWatch opened skip).events lib send = []) ∧
    (∀ err cli, opened = .ok (.error err :: cli) →
      (startWatch opened skip).err = some (.verbatim err) ∧
      (startWatch opened skip).task = none ∧
      (startWatch opened skip).events lib send = []) ∧
    (opened = .ok [] →
      (startWatch opened skip).err = some (.verbatim .eof) ∧
      (startWatch opened skip).task = none ∧
      (startWatch opened skip).events lib send = []) := by
  refine ⟨?_, ?_, ?_, ?_⟩
  · rintro f0 cli rfl
    simp [startWatch, Recv, Subscription.events]
  · rintro err rfl
    simp [startWatch, Subscription.events]
  · rintro err cli rfl
    simp [startWatch, Recv, Subscription.events]
  · rintro rfl
    simp [startWatch, Recv, Subscription.events]

/-- C6: `Adapter.Watch` and `Adapter.WatchKind` (its label query translated)
receive exactly one frame `f0` of the stream the transport opens: the delivery
task gets the stream from `f1` on, and the events the subscriber receives are
those of `watchAdapter` on that rest, so `f0` is not among them whatever it
carries. When opening the stream fails, or receiving `f0` fails (also by
end-of-stream), the call returns that error, starts no task and no event is
delivered. -/
theorem watch_first_frame (adapter : Adapter) (lib : Library) (send : Nat → Bool)
    (resourcePointer : Pointer) (resourceKind : Kind) (wopts : WatchOptions)
    (kopts : WatchKindOptions) :
    (∀ opened,
      adapter.client.Watch
        { Namespace := resourcePointer.ns, Typ := resourcePointer.typ,
          Id := some resourcePointer.id,
          Options := { BootstrapContents := false, TailEvents := toInt32 wopts.TailEvents,
                       LabelQuery := none, IdQuery := none },
          ApiVersion := 1 } = opened →
      (∀ f0 cli, opened = .ok (.ok f0 :: cli) →
        (adapter.Watch resourcePointer wopts).err = none ∧
        (adapter.Watch resourcePointer wopts).task
          = some (cli, wopts.UnmarshalOptions.SkipProtobufUnmarshal) ∧
        (adapter.Watch resourcePointer wopts).events lib send
          = (watchAdapter lib send wopts.UnmarshalOptions.SkipProtobufUnmarshal 0 cli).events) ∧
      (∀ err, opened = .error err →
        (adapter.Watch resourcePointer wopts).err = some (.verbatim err) ∧
        (adapter.Watch resourcePointer wopts).task = none ∧
        (adapter.Watch resourcePointer wopts).events lib send = []) ∧
      (∀ err cli, opened = .ok (.error err :: cli) →
        (adapter.Watch resourcePointer wopts).err = some (.verbatim err) ∧
        (adapter.Watch resourcePointer wopts).task = none ∧
        (adapter.Watch resourcePointer wopts).events lib send = []) ∧
      (opened = .ok [] →
        (adapter.Watch resourcePointer wopts).err = some (.verbatim .eof) ∧
        (adapter.Watch resourcePointer wopts).task = none ∧
        (adapter.Watch resourcePointer wopts).events lib send = [])) ∧
    (∀ labelQuery opened,
      (if kopts.LabelQuery.Terms.length > 0
        then lib.transformLabelQuery kopts.LabelQuery else .ok none) = .ok labelQuery →
      adapter.client.Watch
        { Namespace := resourceKind.ns, Typ := resourceKind.typ, Id := none,
          Options := { BootstrapContents := kopts.BootstrapContents,
                       TailEvents := toInt32 kopts.TailEvents,
                       LabelQuery := labelQuery,
                       IdQuery := lib.transformIDQuery kopts.IDQuery },
          ApiVersion := 1 } = opened →
      (∀ f0 cli, opened = .ok (.ok f0 :: cli) →
        (adapter.WatchKind lib resourceKind kopts).err = none ∧
        (adapter.WatchKind lib resourceKind kopts).task
          = some (cli, kopts.UnmarshalOptions.SkipProtobufUnmarshal) ∧
        (adapter.WatchKind lib resourceKind kopts).events lib send
          = (watchAdapter lib send kopts.UnmarshalOptions.SkipProtobufUnmarshal 0 cli).events) ∧
      (∀ err, opened = .error err →
        (adapter.WatchKind lib resourceKind kopts).err = some (.verbatim err) ∧
        (adapter.WatchKind lib resourceKind kopts).task = none ∧
        (adapter.WatchKind lib resourceKind kopts).events lib send = []) ∧
      (∀ err cli, opened = .ok (.error err :: cli) →
        (adapter.WatchKind lib resourceKind kopts).err = some (.verbatim err) ∧
        (adapter.WatchKind lib resourceKind kopts).task = none ∧
        (adapter.WatchKind lib resourceKind kopts).events lib send = []) ∧
      (opened = .ok [] →
        (adapter.WatchKind lib resourceKind kopts).err = some (.verbatim .eof) ∧
        (adapter.WatchKind lib resourceKind kopts).task = none ∧
        (adapter.WatchKind lib resourceKind kopts).events lib send = [])) := by
  constructor
  · intro opened hopen
    have e1 : adapter.Watch resourcePointer wopts
        = startWatch opened wopts.UnmarshalOptions.SkipProtobufUnmarshal := by
      simp only [Adapter.Watch, hopen]
    rw [e1]
    exact startWatch_cases lib send opened _
  · intro labelQuery opened hquery hopen
    have e2 : adapter.WatchKind lib resourceKind kopts
        = startWatch opened kopts.UnmarshalOptions.SkipProtobufUnmarshal := by
      simp only [Adapter.WatchKind, hquery, hopen]
    rw [e2]
    exact startWatch_cases lib send opened _

/-- Witness for C6: a stream of the opening frame and one CREATED frame; the
subscriber receives the one Created event, through `Watch` and through
`WatchKind`. -/
theorem watch_first_frame_witness :
    (({ client := answeringClient none [] [.ok emptyFrame, .ok createdFrame] } : Adapter).Watch
        samplePointer sampleWatchOptions).events sampleLibrary acceptAll
      = [{ Typ := .Created, Resource := some sampleDecoded, Old := none, Error := none }] ∧
    (({ client := answeringClient none [] [.ok emptyFrame, .ok createdFrame] } : Adapter).Watch
        samplePointer sampleWatchOptions).task = some ([.ok createdFrame], false) ∧
    (({ client := answeringClient none [] [.ok emptyFrame, .ok createdFrame] }
        : Adapter).WatchKind sampleLibrary { ns := "ns", typ := "Widget" }
        sampleWatchKindOptions).task = some ([.ok createdFrame], false) :=
  ⟨rfl,
   ((watch_first_frame
      { client := answeringClient none [] [.ok emptyFrame, .ok createdFrame] }
      sampleLibrary acceptAll samplePointer { ns := "ns", typ := "Widget" }
      sampleWatchOptions sampleWatchKindOptions).1 _ rfl).1 emptyFrame [.ok createdFrame]
      rfl |>.2.1,
   ((watch_first_frame
      { client := answeringClient none [] [.ok emptyFrame, .ok createdFrame] }
      sampleLibrary acceptAll samplePointer { ns := "ns", typ := "Widget" }
      sampleWatchOptions sampleWatchKindOptions).2 none _ rfl rfl).1 emptyFrame
      [.ok createdFrame] rfl |>.2.1⟩

/-! ## Remote adapter: delivery of watch events -/

/-- The tag of an event `buildEvent` builds is the one the switch on the wire
type sets. -/
theorem buildEvent_Typ (lib : Library) (skip : Bool) (ev : WireEvent) (e : Event)
    (h : buildEvent lib skip ev = .ok e) :
    e.Typ = (setEventType Event.zero ev.EventType).Typ := by
  unfold buildEvent at h
  cases hr : ev.Resource with
  | none =>
    cases ho : ev.Old with
    | none =>
      cases he : ev.Error <;> simp [hr, ho, he] at h <;> simp [← h]
    | some w =>
      cases hd : decodeResource lib skip w with
      | error err => simp [hr, ho, hd] at h
      | ok r => cases he : ev.Error <;> simp [hr, ho, hd, he] at h <;> simp [← h]
  | some w0 =>
    cases hd0 : decodeResource lib skip w0 with
    | error err => simp [hr, hd0] at h
    | ok r0 =>
      cases ho : ev.Old with
      | none =>
        cases he : ev.Error <;> simp [hr, hd0, ho, he] at h <;> simp [← h]
      | some w =>
        cases hd : decodeResource lib skip w with
        | error err => simp [hr, hd0, ho, hd] at h
        | ok r => cases he : ev.Error <;> simp [hr, hd0, ho, hd, he] at h <;> simp [← h]

/-- With a subscriber that accepts every event, decodable frames are delivered
one event each, in order, and delivery goes on with the rest of the stream. -/
theorem watchAdapter_decodable_prefix (lib : Library) (skip : Bool)
    (frames : List WatchResponse) (tail : Stream WatchResponse)
    (hdec : ∀ f ∈ frames, ∃ ev e, f.Event = some ev ∧ buildEvent lib skip ev = .ok e) :
    ∀ n, ∃ evs,
      List.Forall₂ (fun f e => ∃ ev, f.Event = some ev ∧ buildEvent lib skip ev = .ok e)
        frames evs ∧
      (watchAdapter lib acceptAll skip n (frames.map Except.ok ++ tail)).events
        = evs ++ (watchAdapter lib acceptAll skip (n + frames.length) tail).events ∧
      (watchAdapter lib acceptAll skip n (frames.map Except.ok ++ tail)).crashed
        = (watchAdapter lib acceptAll skip (n + frames.length) tail).crashed := by
  induction frames with
  | nil => intro n; exact ⟨[], List.Forall₂.nil, by simp, by simp⟩
  | cons f rest ih =>
    intro n
    obtain ⟨ev, e, hev, hb⟩ := hdec f (List.mem_cons_self _ _)
    obtain ⟨evs, hall, hevs, hcr⟩ :=
      ih (fun g hg => hdec g (List.mem_cons_of_mem _ hg)) (n + 1)
    refine ⟨e :: evs, List.Forall₂.cons ⟨ev, hev, hb⟩ hall, ?_, ?_⟩
    · simp only [List.map_cons, List.cons_append, watchAdapter, hev, hb, acceptAll, if_true,
        List.length_cons]
      rw [show n + (rest.length + 1) = n + 1 + rest.length by omega]
      simpa [acceptAll] using hevs
    · simp only [List.map_cons, List.cons_append, watchAdapter, hev, hb, acceptAll, if_true,
        List.length_cons]
      rw [show n + (rest.length + 1) = n + 1 + rest.length by omega]
      simpa [acceptAll] using hcr

/-- C7: for frames that all decode, followed by end-of-stream, and a
subscriber that accepts every event, `watchAdapter` delivers exactly one event
per frame, in the order of the frames: the event is the one built from the
frame, its tag is Created, Updated, Destroyed, Bootstrapped, Errored for the
wire types CREATED, UPDATED, DESTROYED, BOOTSTRAPPED, ERRORED; nothing is
added at end-of-stream and the run ends normally. -/
theorem watch_delivers_every_frame (lib : Library) (skip : Bool)
    (frames : List WatchResponse) (tail : Stream WatchResponse)
    (hdec : ∀ f ∈ frames, ∃ ev e, f.Event = some ev ∧ buildEvent lib skip ev = .ok e)
    (htail : tail = [] ∨ ∃ err rest, tail = .error err :: rest ∧ isEOF err = true) :
    (watchAdapter lib acceptAll skip 0 (frames.map Except.ok ++ tail)).crashed = false ∧
    (watchAdapter lib acceptAll skip 0 (frames.map Except.ok ++ tail)).events.length
      = frames.length ∧
    List.Forall₂
      (fun f e => ∃ ev, f.Event = some ev ∧ buildEvent lib skip ev = .ok e ∧
        (ev.EventType = .CREATED → e.Typ = .Created) ∧
        (ev.EventType = .UPDATED → e.Typ = .Updated) ∧
        (ev.EventType = .DESTROYED → e.Typ = .Destroyed) ∧
        (ev.EventType = .BOOTSTRAPPED → e.Typ = .Bootstrapped) ∧
        (ev.EventType = .ERRORED → e.Typ = .Errored))
      frames (watchAdapter lib acceptAll skip 0 (frames.map Except.ok ++ tail)).events := by
  obtain ⟨evs, hall, hevs, hcr⟩ := watchAdapter_decodable_prefix lib skip frames tail hdec 0
  have htl : watchAdapter lib acceptAll skip (0 + frames.length) tail
      = { events := [], crashed := false } := by
    rcases htail with rfl | ⟨err, rest, rfl, he⟩
    · simp [watchAdapter]
    · simp [watchAdapter, he]
  rw [htl] at hevs hcr
  simp only [List.append_nil] at hevs
  rw [hevs, hcr]
  refine ⟨rfl, hall.length_eq.symm, ?_⟩
  refine hall.imp ?_
  rintro f e ⟨ev, hev, hb⟩
  have ht := buildEvent_Typ lib skip ev e hb
  refine ⟨ev, hev, hb, ?_, ?_, ?_, ?_, ?_⟩ <;> intro h <;> rw [ht, h] <;> rfl

/-- Witness for C7: a CREATED frame and an ERRORED frame, then end-of-stream. -/
theorem watch_delivers_every_frame_witness :
    (watchAdapter sampleLibrary acceptAll false 0
        ([createdFrame, erroredFrame].map Except.ok ++ [.error .eof])).events
      = [{ Typ := .Created, Resource := some sampleDecoded, Old := none, Error := none },
         { Typ := .Errored, Resource := none, Old := none,
           Error := some (.other "watch aborted") }] ∧
    (watchAdapter sampleLibrary acceptAll false 0
        ([createdFrame, erroredFrame].map Except.ok ++ [.error .eof])).events.length = 2 :=
  ⟨rfl, (watch_delivers_every_frame sampleLibrary false [createdFrame, erroredFrame]
    [.error .eof]
    (by
      intro f hf
      simp only [List.mem_cons, List.mem_singleton, List.not_mem_nil, or_false] at hf
      rcases hf with rfl | rfl
      · exact ⟨_, _, rfl, rfl⟩
      · exact ⟨_, _, rfl, rfl⟩)
    (Or.inr ⟨.eof, [], rfl, rfl⟩)).2.1⟩

/-- C9 fails as stated: a frame of type ERRORED is relayed as an Errored event
and delivery goes on, so a Bootstrapped event follows an Errored one when a
further frame arrives, and a receive failure after the frame adds a second
Errored event. -/
theorem errored_frame_counterexample :
    (({ client := answeringClient none []
          [.ok emptyFrame, .ok erroredFrame, .ok bootstrappedFrame] } : Adapter).Watch
        samplePointer sampleWatchOptions).events sampleLibrary acceptAll
      = [{ Typ := .Errored, Resource := none, Old := none,
           Error := some (.other "watch aborted") },
         { Typ := .Bootstrapped, Resource := none, Old := none, Error := none }] ∧
    (({ client := answeringClient none []
          [.ok emptyFrame, .ok erroredFrame,
           .error (.status .Unavailable "transport is closing")] } : Adapter).Watch
        samplePointer sampleWatchOptions).events sampleLibrary acceptAll
      = [{ Typ := .Errored, Resource := none, Old := none,
           Error := some (.other "watch aborted") },
         { Typ := .Errored, Resource := none, Old := none,
           Error := some (.status .Unavailable "transport is closing") }] :=
  ⟨rfl, rfl⟩

/-- An event built from a frame whose wire type is not ERRORED is not an
Errored event. -/
theorem buildEvent_not_errored (lib : Library) (skip : Bool) (ev : WireEvent) (e : Event)
    (h : buildEvent lib skip ev = .ok e) (hty : ev.EventType ≠ .ERRORED) :
    e.Typ ≠ .Errored := by
  rw [buildEvent_Typ lib skip ev e h]
  cases ht : ev.EventType <;> simp_all [setEventType, Event.zero]

/-- On a stream on which every frame of type ERRORED that is received is
directly followed by end-of-stream, an Errored event is the last event of the
run, for every behaviour of the subscriber and the context. -/
theorem watchAdapter_errored_last (lib : Library) (send : Nat → Bool) (skip : Bool) :
    ∀ (stream : Stream WatchResponse) (n : Nat),
      (∀ (frames : List WatchResponse) msg ev post,
        stream = frames.map Except.ok ++ Except.ok msg :: post →
        msg.Event = some ev → ev.EventType = .ERRORED →
        post = [] ∨ ∃ err rest, post = Except.error err :: rest ∧ isEOF err = true) →
      ∀ pre e post, (watchAdapter lib send skip n stream).events = pre ++ e :: post →
        e.Typ = .Errored → post = [] := by
  intro stream
  induction stream with
  | nil =>
    intro n _ pre e post h _
    simp [watchAdapter] at h
  | cons x cli ih =>
    intro n hlast pre e post h hty
    have hone : ∀ x : Event, [x] = pre ++ e :: post → post = [] := by
      intro x hs
      have hl := congrArg List.length hs
      simp at hl
      exact List.length_eq_zero.mp (by omega)
    have hsend : ∀ err, (sendError send n err).events = pre ++ e :: post → post = [] := by
      intro err hs
      unfold sendError at hs
      split at hs
      · exact hone _ hs
      · simp at hs
    cases x with
    | error err =>
      simp only [watchAdapter] at h
      split at h
      · simp at h
      · exact hsend err h
    | ok msg =>
      simp only [watchAdapter] at h
      cases hev : msg.Event with
      | none => simp [hev] at h
      | some ev =>
        simp only [hev] at h
        cases hb : buildEvent lib skip ev with
        | error err =>
          simp only [hb] at h
          exact hsend err h
        | ok event =>
          simp only [hb] at h
          split at h
          · by_cases hE : ev.EventType = .ERRORED
            · have hnext : (watchAdapter lib send skip (n + 1) cli).events = [] := by
                rcases hlast [] msg ev cli (by simp) hev hE with rfl | ⟨err, rest, rfl, he⟩
                · simp [watchAdapter]
                · simp [watchAdapter, he]
              rw [hnext] at h
              exact hone _ h
            · have hne : event.Typ ≠ .Errored := buildEvent_not_errored lib skip ev event hb hE
              cases pre with
              | nil =>
                simp only [List.nil_append, List.cons.injEq] at h
                exact absurd (h.1 ▸ hty) hne
              | cons p pre' =>
                simp only [List.cons_append, List.cons.injEq] at h
                refine ih (n + 1) ?_ pre' e post h.2 hty
                intro frames m v post' hs hm hv
                exact hlast (msg :: frames) m v post' (by simp [hs]) hm hv
          · simp at h

/-- C9 as amended: on a watch stream on which every frame of type ERRORED that
is received is the last result before end-of-stream, whatever the subscriber
and the context do, no event is delivered after an Errored event, and so the
delivered events hold at most one Errored event. -/
theorem errored_is_terminal (lib : Library) (send : Nat → Bool) (skip : Bool)
    (stream : Stream WatchResponse)
    (hlast : ∀ (frames : List WatchResponse) msg ev post,
      stream = frames.map Except.ok ++ Except.ok msg :: post →
      msg.Event = some ev → ev.EventType = .ERRORED →
      post = [] ∨ ∃ err rest, post = Except.error err :: rest ∧ isEOF err = true) :
    (∀ pre e post, (watchAdapter lib send skip 0 stream).events = pre ++ e :: post →
      e.Typ = .Errored → post = []) ∧
    (∀ i j (hi : i < (watchAdapter lib send skip 0 stream).events.length)
      (hj : j < (watchAdapter lib send skip 0 stream).events.length),
      ((watchAdapter lib send skip 0 stream).events.get ⟨i, hi⟩).Typ = .Errored →
      ((watchAdapter lib send skip 0 stream).events.get ⟨j, hj⟩).Typ = .Errored → i = j) := by
  have key := watchAdapter_errored_last lib send skip stream 0 hlast
  refine ⟨key, ?_⟩
  have last : ∀ i (hi : i < (watchAdapter lib send skip 0 stream).events.length),
      ((watchAdapter lib send skip 0 stream).events.get ⟨i, hi⟩).Typ = .Errored →
      i + 1 = (watchAdapter lib send skip 0 stream).events.length := by
    intro i hi hty
    generalize (watchAdapter lib send skip 0 stream).events = l at key hi hty
    have hsplit : l = l.take i ++ l[i] :: l.drop (i + 1) := by
      rw [List.getElem_cons_drop, List.take_append_drop]
    have hpost := key _ _ _ hsplit hty
    have hlen := congrArg List.length hpost
    simp only [List.length_drop, List.length_nil] at hlen
    omega
  intro i j hi hj hti htj
  have h1 := last i hi hti
  have h2 := last j hj htj
  omega

/-- Witness for the amended C9: a BOOTSTRAPPED frame, then an ERRORED frame
followed by end-of-stream, with a subscriber that accepts every event; the
Errored event is delivered last. -/
theorem errored_is_terminal_witness :
    (watchAdapter sampleLibrary acceptAll false 0
        [.ok bootstrappedFrame, .ok erroredFrame, .error .eof]).events
      = [{ Typ := .Bootstrapped, Resource := none, Old := none, Error := none },
         { Typ := .Errored, Resource := none, Old := none,
           Error := some (.other "watch aborted") }] ∧
    (∀ pre e post, (watchAdapter sampleLibrary acceptAll false 0
        [.ok bootstrappedFrame, .ok erroredFrame, .error .eof]).events = pre ++ e :: post →
      e.Typ = .Errored → post = []) :=
  ⟨rfl, (errored_is_terminal sampleLibrary acceptAll false
    [.ok bootstrappedFrame, .ok erroredFrame, .error .eof]
    (by
      intro frames msg ev post hs hev hty
      match frames, hs with
      | [], hs =>
        simp only [List.map_nil, List.nil_append, List.cons.injEq, Except.ok.injEq] at hs
        obtain ⟨hm, _⟩ := hs
        subst hm
        cases hev
        cases hty
      | [f], hs =>
        simp only [List.map_cons, List.map_nil, List.cons_append, List.nil_append,
          List.cons.injEq, Except.ok.injEq] at hs
        exact Or.inr ⟨.eof, [], hs.2.2.symm, rfl⟩
      | [f, g], hs =>
        simp at hs
      | f :: g :: k :: more, hs =>
        simp at hs)).1⟩

/-! ## Remote adapter: listing -/

/-- The receive loop of `List` ends without error exactly when every result
before end-of-stream is a frame that decodes, and then it has appended the
decoded items, one per frame, in order. -/
theorem listLoop_spec (lib : Library) (skip : Bool) :
    ∀ (cli : Stream ListResponse) (acc : List Resource),
      ((listLoop lib skip cli acc).2 = none ↔
        ∀ x ∈ beforeEOF cli, ∃ resp r, x = .ok resp ∧ decodeListItem lib skip resp = .ok r) ∧
      ((listLoop lib skip cli acc).2 = none →
        ∃ items,
          List.Forall₂ (fun x r => ∃ resp, x = .ok resp ∧ decodeListItem lib skip resp = .ok r)
            (beforeEOF cli) items ∧
          (listLoop lib skip cli acc).1 = acc ++ items) := by
  intro cli
  induction cli with
  | nil =>
    intro acc
    simp [listLoop, beforeEOF]
  | cons x rest ih =>
    intro acc
    cases x with
    | error err =>
      cases he : isEOF err
      · simp [listLoop, beforeEOF, he]
      · simp [listLoop, beforeEOF, he]
    | ok resp =>
      have hb : beforeEOF (Except.ok resp :: rest) = Except.ok resp :: beforeEOF rest := by
        simp [beforeEOF]
      rw [hb]
      cases hu : lib.Unmarshal resp.Resource with
      | error err =>
        simp [listLoop, decodeListItem, hu]
      | ok unmarshaled =>
        cases skip with
        | true =>
          have hd : decodeListItem lib true resp = .ok unmarshaled := by
            simp [decodeListItem, hu]
          have hl : listLoop lib true (Except.ok resp :: rest) acc
              = listLoop lib true rest (acc ++ [unmarshaled]) := by
            simp [listLoop, hu]
          rw [hl]
          obtain ⟨h1, h2⟩ := ih (acc ++ [unmarshaled])
          constructor
          · rw [h1]
            simp [hd]
          · intro hn
            obtain ⟨items, hall, hres⟩ := h2 hn
            exact ⟨unmarshaled :: items, List.Forall₂.cons ⟨resp, rfl, hd⟩ hall, by simp [hres]⟩
        | false =>
          cases hr : lib.UnmarshalResource unmarshaled with
          | error err =>
            simp [listLoop, decodeListItem, hu, hr]
          | ok r =>
            have hd : decodeListItem lib false resp = .ok r := by
              simp [decodeListItem, hu, hr]
            have hl : listLoop lib false (Except.ok resp :: rest) acc
                = listLoop lib false rest (acc ++ [r]) := by
              simp [listLoop, hu, hr]
            rw [hl]
            obtain ⟨h1, h2⟩ := ih (acc ++ [r])
            constructor
            · rw [h1]
              simp [hd]
            · intro hn
              obtain ⟨items, hall, hres⟩ := h2 hn
              exact ⟨r :: items, List.Forall₂.cons ⟨resp, rfl, hd⟩ hall, by simp [hres]⟩

/-- C10: `Adapter.List` returns a nil error only if the stream was opened and
every result before end-of-stream is a frame that was decoded, and then the
returned list holds the decoded item of each of these frames, one per frame,
in the order received; if a receive or a decode fails before end-of-stream,
`List` returns a non-nil error. -/
theorem list_all_or_error (adapter : Adapter) (lib : Library) (resourceKind : Kind)
    (opts : ListOptions) :
    ((adapter.List lib resourceKind opts).2 = none →
      ∃ labelQuery cli,
        (if opts.LabelQuery.Terms.length > 0 then lib.transformLabelQuery opts.LabelQuery
          else .ok none) = .ok labelQuery ∧
        adapter.client.List
          { Namespace := resourceKind.ns, Typ := resourceKind.typ,
            Options := { LabelQuery := labelQuery,
                         IdQuery := lib.transformIDQuery opts.IDQuery } } = .ok cli ∧
        List.Forall₂
          (fun x r => ∃ resp, x = .ok resp ∧
            decodeListItem lib opts.UnmarshalOptions.SkipProtobufUnmarshal resp = .ok r)
          (beforeEOF cli) (adapter.List lib resourceKind opts).1) ∧
    (∀ labelQuery cli,
      (if opts.LabelQuery.Terms.length > 0 then lib.transformLabelQuery opts.LabelQuery
        else .ok none) = .ok labelQuery →
      adapter.client.List
        { Namespace := resourceKind.ns, Typ := resourceKind.typ,
          Options := { LabelQuery := labelQuery,
                       IdQuery := lib.transformIDQuery opts.IDQuery } } = .ok cli →
      (∃ x ∈ beforeEOF cli, ¬ ∃ resp r, x = .ok resp ∧
        decodeListItem lib opts.UnmarshalOptions.SkipProtobufUnmarshal resp = .ok r) →
      (adapter.List lib resourceKind opts).2 ≠ none) := by
  constructor
  · intro hret
    unfold Adapter.List at hret ⊢
    cases hq : (if opts.LabelQuery.Terms.length > 0
        then lib.transformLabelQuery opts.LabelQuery else .ok none) with
    | error err => simp [hq] at hret
    | ok labelQuery =>
      cases ho : adapter.client.List
          { Namespace := resourceKind.ns, Typ := resourceKind.typ,
            Options := { LabelQuery := labelQuery,
                         IdQuery := lib.transformIDQuery opts.IDQuery } } with
      | error err =>
        simp only [hq, ho] at hret
        cases h : statusCode err <;> simp [h] at hret
      | ok cli =>
        simp only [hq, ho] at hret ⊢
        obtain ⟨items, hall, hres⟩ :=
          (listLoop_spec lib opts.UnmarshalOptions.SkipProtobufUnmarshal cli []).2 hret
        refine ⟨labelQuery, cli, rfl, ho, ?_⟩
        rw [hres]
        simpa using hall
  · intro labelQuery cli hq ho ⟨x, hx, hbad⟩ hret
    simp only [Adapter.List, hq, ho] at hret
    exact hbad
      ((listLoop_spec lib opts.UnmarshalOptions.SkipProtobufUnmarshal cli []).1.mp hret x hx)

/-- Witness for C10: two frames and end-of-stream give two items; a receive
failure after the first frame gives an error. -/
theorem list_all_or_error_witness :
    ({ client := answeringClient none sampleListStream [] } : Adapter).List sampleLibrary
        { ns := "ns", typ := "Widget" } sampleListOptions
      = ([sampleDecoded, sampleDecoded], none) ∧
    (({ client := answeringClient none brokenListStream [] } : Adapter).List sampleLibrary
        { ns := "ns", typ := "Widget" } sampleListOptions).2 ≠ none :=
  ⟨rfl, (list_all_or_error { client := answeringClient none brokenListStream [] }
    sampleLibrary { ns := "ns", typ := "Widget" } sampleListOptions).2 none _ rfl rfl
    ⟨.error (.status .Unavailable "closing"), by simp [beforeEOF, isEOF, brokenListStream],
      by rintro ⟨resp, r, h, _⟩; cases h⟩⟩

end Client

/-! ## In-memory store: error kinds -/

namespace Inmem

open Client

/-- C11: for every resource pointer and every pair of versions, the error of
`ErrNotFound` is recognised by `IsNotFoundError`, and the errors of
`ErrAlreadyExists`, `ErrVersionConflict` and `ErrPendingFinalizers` are
recognised by `IsConflictError`; so the four assertions of `TestErrors`
hold. -/
theorem inmem_error_kinds (r : Pointer) (expected found : Version) :
    IsNotFoundError (ErrNotFound r) = true ∧
    IsConflictError (ErrAlreadyExists r) = true ∧
    IsConflictError (ErrVersionConflict r expected found) = true ∧
    IsConflictError (ErrPendingFinalizers r) = true ∧
    TestErrors = true :=
  ⟨rfl, rfl, rfl, rfl, rfl⟩

end Inmem

/-! ## Test assertions: one pass and the outcome of a run -/

namespace Rtestutils

open Client

/-- After the flag is lowered, the flag is up again exactly when the caller's
function reported a failure. -/
theorem foldl_Errorf_hadErrors (msgs : List String) :
    ∀ agg : assertionAggregator,
      (msgs.foldl (fun a msg => a.Errorf (.assertion msg)) agg).hadErrors
        = (agg.hadErrors || !msgs.isEmpty) := by
  induction msgs with
  | nil => intro agg; simp
  | cons m rest ih =>
    intro agg
    rw [List.foldl_cons, ih]
    simp [assertionAggregator.Errorf]

/-- The inner loop adds one to the count for each id the store returns and the
caller's function has no failure on, whatever the aggregator holds on entry. -/
theorem passLoop_count (st : State) (ns typ : String)
    (assertionFunc : Resource → List String) (ids : List String) :
    ∀ (ok : Nat) (agg : assertionAggregator) (ok' : Nat) (agg' : assertionAggregator),
      passLoop st ns typ assertionFunc ids ok agg = .done ok' agg' →
      ok' = ok + ids.countP (fun id =>
        match st.Get { ns := ns, typ := typ, id := id } with
        | .ok res => (assertionFunc res).isEmpty
        | .error _ => false) := by
  induction ids with
  | nil =>
    intro ok agg ok' agg' h
    simp only [passLoop, PassResult.done.injEq] at h
    simp [h.1]
  | cons id rest ih =>
    intro ok agg ok' agg' h
    cases hg : st.Get { ns := ns, typ := typ, id := id } with
    | error err =>
      simp only [passLoop, hg] at h
      split at h
      · have := ih _ _ _ _ h
        simp [List.countP_cons, hg, this]
      · cases h
    | ok res =>
      simp only [passLoop, hg, foldl_Errorf_hadErrors, Bool.false_or, Bool.not_not] at h
      cases he : (assertionFunc res).isEmpty
      · simp only [he, Bool.false_eq_true, if_false] at h
        have := ih _ _ _ _ h
        simp [List.countP_cons, hg, he, this]
      · simp only [he, if_true] at h
        have := ih _ _ _ _ h
        simp [List.countP_cons, hg, he, this]
        omega

/-- A pass whose count equals the number of ids found every id in the store,
with no failure of the caller's function on it. -/
theorem pass_full_count (st : State) (ns typ : String)
    (assertionFunc : Resource → List String) (ids : List String) (agg : assertionAggregator)
    (h : pass st ns typ assertionFunc ids = .done ids.length agg) :
    ∀ id ∈ ids, ∃ res, st.Get { ns := ns, typ := typ, id := id } = .ok res ∧
      assertionFunc res = [] := by
  have hc := passLoop_count st ns typ assertionFunc ids 0 _ _ _ h
  rw [Nat.zero_add] at hc
  have hall := List.countP_eq_length.mp hc.symm
  intro id hid
  have := hall id hid
  cases hg : st.Get { ns := ns, typ := typ, id := id } with
  | error err => simp [hg] at this
  | ok res =>
    simp only [hg, List.isEmpty_iff] at this
    exact ⟨res, rfl, this⟩

/-- A turn ends the run with a normal return exactly when the count of its
pass equals the number of ids, whatever `select` would receive. -/
theorem turn_returned_iff (ns typ : String) (assertionFunc : Resource → List String)
    (ids : List String) (vars : LoopState) (logs : List Report) (st : State)
    (sel : Option Select) :
    (∃ logs', turn ns typ assertionFunc ids vars logs st sel
        = .stop { outcome := .returned, logs := logs' }) ↔
      ∃ agg, pass st ns typ assertionFunc ids = .done ids.length agg := by
  unfold turn
  cases hp : pass st ns typ assertionFunc ids with
  | fatal err => simp
  | done ok agg =>
    by_cases hk : ok = ids.length
    · subst hk
      simp
    · have hk' : ¬ ids.length = ok := fun h => hk h.symm
      simp only [beq_iff_eq, hk, if_false, PassResult.done.injEq, hk', false_and, exists_false,
        iff_false, not_exists]
      intro logs'
      rcases sel with _ | sel
      · simp
      · cases sel with
        | ctxDone => simp
        | tick => simp
        | event ev =>
          simp only
          split
          · cases ev.Error <;> simp
          · simp

/-- When the schedule is used up, a turn never asks to go round again. -/
theorem turn_none_stops (ns typ : String) (assertionFunc : Resource → List String)
    (ids : List String) (vars : LoopState) (logs : List Report) (st : State) :
    ∃ run, turn ns typ assertionFunc ids vars logs st none = .stop run := by
  unfold turn
  cases hp : pass st ns typ assertionFunc ids with
  | fatal err => exact ⟨_, rfl⟩
  | done ok agg =>
    simp only
    split
    · exact ⟨_, rfl⟩
    · exact ⟨_, rfl⟩

/-- The outer loop returns in the pass at hand when the count of that pass
equals the number of ids. -/
theorem assertLoop_returns_now (ns typ : String) (assertionFunc : Resource → List String)
    (ids : List String) (vars : LoopState) (logs : List Report) (st : State)
    (schedule : List (Select × State)) (agg : assertionAggregator)
    (h : pass st ns typ assertionFunc ids = .done ids.length agg) :
    (assertLoop ns typ assertionFunc ids schedule vars logs st).outcome = .returned := by
  cases schedule with
  | nil =>
    obtain ⟨logs', ht⟩ :=
      (turn_returned_iff ns typ assertionFunc ids vars logs st none).mpr ⟨agg, h⟩
    simp [assertLoop, ht]
  | cons entry rest =>
    obtain ⟨sel, next⟩ := entry
    obtain ⟨logs', ht⟩ :=
      (turn_returned_iff ns typ assertionFunc ids vars logs st (some sel)).mpr ⟨agg, h⟩
    simp [assertLoop, ht]

/-- With nothing scheduled after it, a pass makes the loop return exactly when
its count equals the number of ids. -/
theorem assertLoop_single_pass (ns typ : String) (assertionFunc : Resource → List String)
    (ids : List String) (vars : LoopState) (logs : List Report) (st : State) :
    (assertLoop ns typ assertionFunc ids [] vars logs st).outcome = .returned ↔
      ∃ agg, pass st ns typ assertionFunc ids = .done ids.length agg := by
  constructor
  · intro h
    obtain ⟨run, hr⟩ := turn_none_stops ns typ assertionFunc ids vars logs st
    simp only [assertLoop, hr] at h
    refine (turn_returned_iff ns typ assertionFunc ids vars logs st none).mp ⟨run.logs, ?_⟩
    rw [hr]
    cases run with
    | mk outcome logs' =>
      simp only at h
      subst h
      rfl
  · rintro ⟨agg, h⟩
    exact assertLoop_returns_now ns typ assertionFunc ids vars logs st [] agg h

/-- A run of the outer loop that returns did so in a pass, over one of the
stores it saw, whose count equals the number of ids. -/
theorem assertLoop_returned (ns typ : String) (assertionFunc : Resource → List String)
    (ids : List String) :
    ∀ (schedule : List (Select × State)) (vars : LoopState) (logs : List Report) (st : State),
      (assertLoop ns typ assertionFunc ids schedule vars logs st).outcome = .returned →
      ∃ st' ∈ st :: schedule.map Prod.snd, ∃ agg,
        pass st' ns typ assertionFunc ids = .done ids.length agg := by
  intro schedule
  induction schedule with
  | nil =>
    intro vars logs st h
    exact ⟨st, by simp, (assertLoop_single_pass ns typ assertionFunc ids vars logs st).mp h⟩
  | cons entry rest ih =>
    intro vars logs st h
    obtain ⟨sel, next⟩ := entry
    cases ht : turn ns typ assertionFunc ids vars logs st (some sel) with
    | stop run =>
      simp only [assertLoop, ht] at h
      refine ⟨st, by simp, ?_⟩
      refine (turn_returned_iff ns typ assertionFunc ids vars logs st (some sel)).mp
        ⟨run.logs, ?_⟩
      rw [ht]
      cases run with
      | mk outcome logs' =>
        simp only at h
        subst h
        rfl
    | again vars' logs' =>
      simp only [assertLoop, ht] at h
      obtain ⟨st', hm, hp⟩ := ih vars' logs' next h
      exact ⟨st', by simp only [List.map_cons]; exact List.mem_cons_of_mem _ hm, hp⟩

/-- A pass over a store that holds every id, with no failure of the caller's
function on any, runs to its end and counts them all. -/
theorem passLoop_all_ok (st : State) (ns typ : String)
    (assertionFunc : Resource → List String) (ids : List String) :
    ∀ (ok : Nat) (agg : assertionAggregator),
      (∀ id ∈ ids, ∃ res, st.Get { ns := ns, typ := typ, id := id } = .ok res ∧
        assertionFunc res = []) →
      ∃ agg', passLoop st ns typ assertionFunc ids ok agg = .done (ok + ids.length) agg' := by
  induction ids with
  | nil => intro ok agg _; exact ⟨agg, rfl⟩
  | cons id rest ih =>
    intro ok agg h
    obtain ⟨res, hg, hf⟩ := h id (List.mem_cons_self _ _)
    obtain ⟨agg', hr⟩ := ih (ok + 1) { agg with hadErrors := false }
      (fun i hi => h i (List.mem_cons_of_mem _ hi))
    refine ⟨agg', ?_⟩
    simp only [passLoop, hg, hf, List.foldl_nil, Bool.not_false, if_true, List.length_cons]
    rw [hr]
    congr 1
    omega

/-- The count of a pass equals the number of ids exactly when the store holds
every id with no failure of the caller's function on any. -/
theorem pass_full_iff (st : State) (ns typ : String)
    (assertionFunc : Resource → List String) (ids : List String) :
    (∃ agg, pass st ns typ assertionFunc ids = .done ids.length agg) ↔
      ∀ id ∈ ids, ∃ res, st.Get { ns := ns, typ := typ, id := id } = .ok res ∧
        assertionFunc res = [] := by
  constructor
  · rintro ⟨agg, h⟩
    exact pass_full_count st ns typ assertionFunc ids agg h
  · intro h
    obtain ⟨agg', hr⟩ := passLoop_all_ok st ns typ assertionFunc ids 0 _ h
    rw [Nat.zero_add] at hr
    exact ⟨agg', hr⟩

/-- A turn asks to go round again exactly when its pass ran to its end with a
count short of the number of ids and `select` received neither the end of the
context nor an Errored event that carries an error. -/
theorem turn_again_iff (ns typ : String) (assertionFunc : Resource → List String)
    (ids : List String) (vars : LoopState) (logs : List Report) (st : State) (sel : Select) :
    (∃ vars' logs', turn ns typ assertionFunc ids vars logs st (some sel)
        = .again vars' logs') ↔
      ((∃ ok agg, pass st ns typ assertionFunc ids = .done ok agg ∧ ok ≠ ids.length) ∧
        sel ≠ .ctxDone ∧
        ∀ ev err, sel = .event ev → ev.Typ = .Errored → ev.Error ≠ some err) := by
  unfold turn
  cases hp : pass st ns typ assertionFunc ids with
  | fatal err => simp
  | done ok agg =>
    by_cases hk : ok = ids.length
    · subst hk
      simp
    · simp only [beq_iff_eq, hk, if_false, PassResult.done.injEq, ne_eq]
      have hex : ∃ ok' agg', (ok = ok' ∧ agg = agg') ∧ ¬ ok' = ids.length :=
        ⟨ok, agg, ⟨rfl, rfl⟩, hk⟩
      cases sel with
      | ctxDone => simp
      | tick => simp [hk]
      | event ev =>
        dsimp only
        by_cases hE : ev.Typ = .Errored
        · rw [if_pos hE]
          cases hev : ev.Error with
          | none =>
            constructor
            · intro _
              refine ⟨hex, by simp, ?_⟩
              rintro ev1 err h1 _
              cases h1
              simp [hev]
            · intro _
              exact ⟨_, _, rfl⟩
          | some err =>
            constructor
            · rintro ⟨_, _, h⟩
              cases h
            · rintro ⟨_, _, h⟩
              exact absurd hev (h ev err rfl hE)
        · rw [if_neg hE]
          constructor
          · intro _
            refine ⟨hex, by simp, ?_⟩
            rintro ev1 err h1 hty
            cases h1
            exact absurd hty hE
          · intro _
            exact ⟨_, _, rfl⟩

/-- The outer loop returns exactly when, after a reached part of the schedule
on which every turn asked to go round again, the pass over the store at hand
counts every id. -/
theorem assertLoop_returned_iff (ns typ : String) (assertionFunc : Resource → List String)
    (ids : List String) :
    ∀ (schedule : List (Select × State)) (vars : LoopState) (logs : List Report) (st : State),
      (assertLoop ns typ assertionFunc ids schedule vars logs st).outcome = .returned ↔
      ∃ pre post, schedule = pre ++ post ∧
        (∀ p ∈ List.zip (st :: pre.map Prod.snd) (pre.map Prod.fst),
          (∃ ok agg, pass p.1 ns typ assertionFunc ids = .done ok agg ∧ ok ≠ ids.length) ∧
          p.2 ≠ .ctxDone ∧
          ∀ ev err, p.2 = .event ev → ev.Typ = .Errored → ev.Error ≠ some err) ∧
        ∃ last agg, (st :: pre.map Prod.snd).getLast? = some last ∧
          pass last ns typ assertionFunc ids = .done ids.length agg := by
  intro schedule
  induction schedule with
  | nil =>
    intro vars logs st
    rw [assertLoop_single_pass]
    constructor
    · rintro ⟨agg, h⟩
      exact ⟨[], [], rfl, by simp, st, agg, rfl, h⟩
    · rintro ⟨pre, post, hs, _, last, agg, hl, hp⟩
      have hpre : pre = [] := (List.append_eq_nil.mp hs.symm).1
      subst hpre
      simp only [List.map_nil, List.getLast?_singleton, Option.some.injEq] at hl
      subst hl
      exact ⟨agg, hp⟩
  | cons entry rest ih =>
    intro vars logs st
    obtain ⟨sel, next⟩ := entry
    constructor
    · intro h
      cases ht : turn ns typ assertionFunc ids vars logs st (some sel) with
      | stop run =>
        simp only [assertLoop, ht] at h
        have hfull := (turn_returned_iff ns typ assertionFunc ids vars logs st (some sel)).mp
          ⟨run.logs, by
            rw [ht]
            cases run with
            | mk outcome logs' =>
              simp only at h
              subst h
              rfl⟩
        obtain ⟨agg, hp⟩ := hfull
        exact ⟨[], (sel, next) :: rest, rfl, by simp, st, agg, rfl, hp⟩
      | again vars' logs' =>
        simp only [assertLoop, ht] at h
        obtain ⟨pre, post, hs, hz, last, agg, hl, hp⟩ := (ih vars' logs' next).mp h
        refine ⟨(sel, next) :: pre, post, by simp [hs], ?_, last, agg, ?_, hp⟩
        · intro p hpm
          simp only [List.map_cons, List.zip_cons_cons, List.mem_cons] at hpm
          rcases hpm with rfl | hpm
          · exact (turn_again_iff ns typ assertionFunc ids vars logs st sel).mp
              ⟨vars', logs', ht⟩
          · exact hz p hpm
        · simpa using hl
    · rintro ⟨pre, post, hs, hz, last, agg, hl, hp⟩
      cases pre with
      | nil =>
        simp only [List.map_nil, List.getLast?_singleton, Option.some.injEq] at hl
        subst hl
        exact assertLoop_returns_now ns typ assertionFunc ids vars logs st _ agg hp
      | cons p pre' =>
        simp only [List.cons_append, List.cons.injEq] at hs
        obtain ⟨hp0, hrest⟩ := hs
        subst hp0
        have hcont := hz (st, sel) (by simp)
        obtain ⟨vars', logs', ht⟩ :=
          (turn_again_iff ns typ assertionFunc ids vars logs st sel).mpr hcont
        simp only [assertLoop, ht]
        refine (ih vars' logs' next).mpr ⟨pre', post, hrest, ?_, last, agg, ?_, hp⟩
        · intro q hq
          exact hz q (by
            simp only [List.map_cons, List.zip_cons_cons, List.mem_cons]
            exact Or.inr hq)
        · simpa using hl

/-- C12 fails as stated for the empty id list: the count equals the number of
ids, yet `AssertResources` does not return when `WatchKind` fails, where
`require.NoError` stops it before any pass, nor when the report interval is
zero, where `time.NewTicker` panics. -/
theorem assert_resources_empty_ids_counterexample :
    pass brokenWatchStore "default" "Widget" sampleAssertion []
      = .done ([] : List String).length { errors := [], hadErrors := false } ∧
    AssertResources sampleDefinition brokenWatchStore [] sampleAssertion [] []
      = { outcome := .failNow (.watchKind
            (.verbatim (.status .Unavailable "transport is closing"))),
          logs := [] } ∧
    AssertResources sampleDefinition (sampleStore []) [] sampleAssertion
        [.WithReportInterval 0] []
      = { outcome := .panicked, logs := [] } :=
  ⟨rfl, rfl, rfl⟩

/-- C12 as amended: in one pass of `AssertResources` over a store, the count
is the number of expected ids for which the store returns the resource and the
assertion function records no failure on that resource (an id the store does
not return adds nothing, and failures on other ids play no part), and a turn of
the loop returns exactly when the count of its pass equals the number of ids.
`AssertResources` returns exactly when `WatchKind` succeeded, the report
interval is positive, and, after a part of the schedule on which every pass
ran to its end short of the full count and `select` received neither the end
of the context nor an Errored event with an error, the store of the pass at
hand holds every expected id with no failure recorded on any. So, under the
two conditions, an empty id list returns in the first pass. -/
theorem assert_resources_count_and_return (rds : ResourceDefinitionSpec) (st : State)
    (ids : List String) (assertionFunc : Resource → List String) (opts : List TestOption)
    (schedule : List (Select × State)) :
    (∀ ns typ ok agg, pass st ns typ assertionFunc ids = .done ok agg →
      ok = ids.countP (fun id =>
        match st.Get { ns := ns, typ := typ, id := id } with
        | .ok res => (assertionFunc res).isEmpty
        | .error _ => false)) ∧
    (∀ ns typ vars logs sel,
      (∃ logs', turn ns typ assertionFunc ids vars logs st sel
          = .stop { outcome := .returned, logs := logs' }) ↔
        ∃ agg, pass st ns typ assertionFunc ids = .done ids.length agg) ∧
    ((AssertResources rds st ids assertionFunc opts schedule).outcome = .returned ↔
      st.WatchKind
          { ns := pick ((makeOptions opts).Namespace != "") (makeOptions opts).Namespace
                    rds.DefaultNamespace,
            typ := rds.Typ } = none ∧
        0 < (makeOptions opts).ReportInterval ∧
        ∃ pre post, schedule = pre ++ post ∧
          (∀ p ∈ List.zip (st :: pre.map Prod.snd) (pre.map Prod.fst),
            (∃ ok agg,
              pass p.1
                (pick ((makeOptions opts).Namespace != "") (makeOptions opts).Namespace
                  rds.DefaultNamespace)
                rds.Typ assertionFunc ids = .done ok agg ∧ ok ≠ ids.length) ∧
            p.2 ≠ .ctxDone ∧
            ∀ ev err, p.2 = .event ev → ev.Typ = .Errored → ev.Error ≠ some err) ∧
          ∃ last, (st :: pre.map Prod.snd).getLast? = some last ∧
            ∀ id ∈ ids, ∃ res,
              last.Get
                { ns := pick ((makeOptions opts).Namespace != "") (makeOptions opts).Namespace
                          rds.DefaultNamespace,
                  typ := rds.Typ, id := id } = .ok res ∧
              assertionFunc res = []) ∧
    (st.WatchKind
        { ns := pick ((makeOptions opts).Namespace != "") (makeOptions opts).Namespace
                  rds.DefaultNamespace,
          typ := rds.Typ } = none →
      0 < (makeOptions opts).ReportInterval →
      (AssertResources rds st [] assertionFunc opts schedule).outcome = .returned) := by
  refine ⟨?_, ?_, ?_, ?_⟩
  · intro ns typ ok agg h
    have := passLoop_count st ns typ assertionFunc ids 0 _ ok agg h
    rwa [Nat.zero_add] at this
  · intro ns typ vars logs sel
    exact turn_returned_iff ns typ assertionFunc ids vars logs st sel
  · unfold AssertResources
    simp only
    cases hw : st.WatchKind
        { ns := pick ((makeOptions opts).Namespace != "") (makeOptions opts).Namespace
                  rds.DefaultNamespace,
          typ := rds.Typ } with
    | some err => simp
    | none =>
      by_cases hi : (makeOptions opts).ReportInterval ≤ 0
      · have hi' : ¬ 0 < (makeOptions opts).ReportInterval := by omega
        simp [hi, hi']
      · have hi' : 0 < (makeOptions opts).ReportInterval := by omega
        simp only [hi, if_false, hi', true_and]
        rw [assertLoop_returned_iff]
        constructor
        · rintro ⟨pre, post, hs, hz, last, agg, hl, hp⟩
          exact ⟨pre, post, hs, hz, last, hl,
            (pass_full_iff last _ _ assertionFunc ids).mp ⟨agg, hp⟩⟩
        · rintro ⟨pre, post, hs, hz, last, hl, hall⟩
          obtain ⟨agg, hp⟩ := (pass_full_iff last _ _ assertionFunc ids).mpr hall
          exact ⟨pre, post, hs, hz, last, agg, hl, hp⟩
  · intro hw hi
    have hi' : ¬ (makeOptions opts).ReportInterval ≤ 0 := by omega
    simp only [AssertResources, hw, hi', if_false]
    exact assertLoop_returns_now _ _ assertionFunc [] _ _ st schedule
      { errors := [], hadErrors := false } rfl

/-- Witness for the amended C12: the ids `a` and `c` are expected and `c`
appears in the store only after a tick, so the run returns on the second
pass, over the store that holds both; when instead the context ends after the
first pass the run fails with a timeout although the store that follows holds
both ids; with the ids `a` and `b` the assertion function fails on `b` and the
run is left waiting. -/
theorem assert_resources_count_and_return_witness :
    AssertResources sampleDefinition (sampleStore ["a"]) ["a", "c"] sampleAssertion []
        [(.tick, sampleStore ["a", "c"])]
      = { outcome := .returned, logs := [] } ∧
    AssertResources sampleDefinition (sampleStore ["a"]) ["a", "c"] sampleAssertion []
        [(.ctxDone, sampleStore ["a", "c"])]
      = { outcome := .failNow (.timeout
            { errors := [.noError (Inmem.ErrNotFound
                          { ns := "default", typ := "Widget", id := "c" })],
              hadErrors := true }),
          logs := [] } ∧
    (AssertResources sampleDefinition (sampleStore ["a", "b"]) ["a", "b"] sampleAssertion []
        []).outcome = .waiting ∧
    pass (sampleStore ["a", "b"]) "default" "Widget" sampleAssertion ["a", "b", "c"]
      = .done 1 { errors := [.assertion "payload must not be b",
                             .noError (Inmem.ErrNotFound
                               { ns := "default", typ := "Widget", id := "c" })],
                  hadErrors := true } ∧
    (sampleStore ["a"]).WatchKind { ns := "default", typ := "Widget" } = none :=
  ⟨rfl, rfl, rfl, rfl,
   ((assert_resources_count_and_return sampleDefinition (sampleStore ["a"]) ["a", "c"]
      sampleAssertion [] [(.tick, sampleStore ["a", "c"])]).2.2.1.mp rfl).1⟩

end Rtestutils

/-! ## Resource registry: registrations and creates -/

namespace Registry

open Client

/-- C13: `Register` returns an error and leaves the store as it was, issuing no
create, when the resource provides no definition or `NewResourceDefinition`
rejects its definition; otherwise it issues exactly one create, of the
definition resource, and returns the result of that create. `RegisterDefault`
registers `ResourceDefinition` first and `Namespace` second, and when the first
registration fails it returns that error with nothing further attempted. -/
theorem register_creates_once {σ : Type} (m : Meta) (state : StateOps σ) (s : σ)
    (log : List Resource) (r : Registrable) :
    (r.definition = none →
      Register m state s r = (some (.notProvider r.resource), s) ∧
      (Register m (traced state) { store := s, creates := log } r).2.creates = log) ∧
    (∀ d err, r.definition = some d → m.NewResourceDefinition d = .error err →
      Register m state s r = (some (.rejected err), s) ∧
      (Register m (traced state) { store := s, creates := log } r).2.creates = log) ∧
    (∀ d def_, r.definition = some d → m.NewResourceDefinition d = .ok def_ →
      Register m state s r
        = ((state.Create s def_).1.map RegisterError.create, (state.Create s def_).2) ∧
      (Register m (traced state) { store := s, creates := log } r).2.creates = log ++ [def_]) ∧
    (∀ err s1, Register m state s m.ResourceDefinition = (some err, s1) →
      RegisterDefault m state s = (some err, s1)) ∧
    (∀ s1, Register m state s m.ResourceDefinition = (none, s1) →
      RegisterDefault m state s = Register m state s1 m.Namespace) := by
  refine ⟨?_, ?_, ?_, ?_, ?_⟩
  · intro h
    simp [Register, h]
  · intro d err h hn
    simp [Register, h, hn]
  · intro d def_ h hn
    simp [Register, h, hn, traced]
  · intro err s1 h
    simp [RegisterDefault, registerEach, h]
  · intro s1 h
    simp only [RegisterDefault, registerEach, h]
    cases hr : Register m state s1 m.Namespace with
    | mk e s2 => cases e <;> rfl

/-- Witness for C13: with an empty store both default registrations create
their definition resource; a second `RegisterDefault` issues the create of the
first registration, which is refused, and does not attempt the second. -/
theorem register_creates_once_witness :
    RegisterDefault sampleMeta sampleState []
      = (none, [sampleDefinitionResource { Typ := "ResourceDefinition",
                                           DefaultNamespace := "meta" },
                sampleDefinitionResource { Typ := "Namespace", DefaultNamespace := "meta" }]) ∧
    (RegisterDefault sampleMeta (traced sampleState)
        { store := (RegisterDefault sampleMeta sampleState []).2, creates := [] }).2.creates
      = [sampleDefinitionResource { Typ := "ResourceDefinition", DefaultNamespace := "meta" }] ∧
    Register sampleMeta sampleState [] sampleMeta.Namespace
      = ((sampleState.Create []
            (sampleDefinitionResource { Typ := "Namespace", DefaultNamespace := "meta" })).1.map
          RegisterError.create,
         (sampleState.Create []
            (sampleDefinitionResource { Typ := "Namespace", DefaultNamespace := "meta" })).2) :=
  ⟨rfl, rfl,
   ((register_creates_once sampleMeta sampleState [] [] sampleMeta.Namespace).2.2.1
      { Typ := "Namespace", DefaultNamespace := "meta" }
      (sampleDefinitionResource { Typ := "Namespace", DefaultNamespace := "meta" })
      rfl rfl).1⟩

end Registry
